import Mathlib

/-!
Verification of the anthropic-proxy-rs core: a shallow embedding of the
routing decision engine, the request/response transformers and the two SSE
stream translators, with theorems checking the natural-language
specification against the code.

Conventions of the embedding:
* Rust `String` is Lean `String`; the case-folding / prefix / substring
  operations are re-implemented over the character list so that they reduce
  inside the kernel (`lowerStr` is ASCII case folding, which agrees with
  Rust `to_lowercase` on all ASCII model names).
* `serde_json::Value` is the inductive `Json`; the serde codec functions
  (`serde_json::to_string`, `serde_json::from_str`) are external library
  code, so the transformers are parametrised over a total
  `stringify : Json → String` and a `parse_json : String → Option Json`.
* Machine integers (`u32`, `u64`) are `Nat`; `f32` scalars are carried
  opaquely as `F32` (a raw bit pattern) because the code never computes on
  them.
* The stream translators are modelled at the granularity of parsed SSE
  `data:` lines / parsed chunks; byte-level frame reassembly only groups
  lines and is transparent to the per-event claims.  `SystemTime::now` is a
  `now : Nat` parameter.
* Fallible Rust paths return `Except ProxyError _`; functions whose Rust
  bodies can never return `Err` are embedded as total functions.
* The OpenAI-side data declarations (`src/models/openai.rs`) are not in the
  source tree; those structures are modelled from the spec (§3) and from
  their constructor and field uses in the transformers.
-/

namespace Proxy

/-! ## JSON values (serde_json::Value) -/

/-- JSON values, standing in for `serde_json::Value`.  Numbers are carried
as integers; no claim computes on numeric JSON payloads. -/
inductive Json where
  | null : Json
  | bool (b : Bool) : Json
  | num (n : Int) : Json
  | str (s : String) : Json
  | arr (elems : List Json) : Json
  | obj (fields : List (String × Json)) : Json
  deriving Repr

/-- An `f32` scalar carried opaquely as its raw bit pattern: the core never
performs arithmetic on `temperature` / `top_p`, it only copies them. -/
structure F32 where
  bits : Nat
  deriving Repr, DecidableEq

/-! ## String helpers

Character-list re-implementations of the Rust string operations used by the
router and the transformers, written so that they evaluate by `decide`. -/

/-- ASCII case folding, mirroring `str::to_lowercase` on ASCII input. -/
def lowerStr (s : String) : String := ⟨s.data.map Char.toLower⟩

/-- `str::starts_with`. -/
def strStartsWith (s p : String) : Bool := s.data.take p.data.length == p.data

/-- Substring search over character lists (`str::contains`). -/
def listContainsSub (hay needle : List Char) : Bool :=
  match hay with
  | [] => needle.isEmpty
  | _ :: t => (hay.take needle.length == needle) || listContainsSub t needle

/-- `str::contains` with a string pattern. -/
def strContains (s p : String) : Bool := listContainsSub s.data p.data

/-- `str::ends_with`. -/
def strEndsWith (s p : String) : Bool :=
  p.data.length ≤ s.data.length && s.data.drop (s.data.length - p.data.length) == p.data

/-- Split a character list at the first occurrence of `sep`
(`str::find` followed by slicing). -/
def splitFirst (sep : Char) : List Char → Option (List Char × List Char)
  | [] => none
  | c :: t =>
    if c = sep then some ([], t)
    else (splitFirst sep t).map fun p => (c :: p.1, p.2)

/-! ## Configuration (src/config.rs) -/

/-- `config::RoutingMode`. -/
inductive RoutingMode where
  | transformMode
  | passthrough
  | auto
  | gateway
  deriving Repr, DecidableEq

/-- `config::Config`. -/
structure Config where
  port : Nat
  routing_mode : RoutingMode
  anthropic_base_url : Option String
  anthropic_api_key : Option String
  openai_base_url : Option String
  openai_api_key : Option String
  base_url : Option String
  api_key : Option String
  reasoning_model : Option String
  completion_model : Option String
  debug : Bool
  verbose : Bool
  log_raw_json : Bool
  deriving Repr, DecidableEq

/-! ## Errors (src/error.rs) -/

/-- `error::ProxyError`.  The `Serialization` and `Http` variants wrap
foreign error types in Rust; their display text is carried as a string. -/
inductive ProxyError where
  | configErr (msg : String)
  | transformErr (msg : String)
  | upstreamErr (msg : String)
  | serializationErr (msg : String)
  | httpErr (msg : String)
  | internalErr (msg : String)
  | unsupportedOperation (msg : String)
  | routingErr (msg : String)
  deriving Repr, DecidableEq

/-! ## Router (src/router.rs) -/

/-- `router::Backend`. -/
inductive Backend where
  | anthropic
  | openai
  | upstream
  deriving Repr, DecidableEq

/-- `router::RequestFormat`. -/
inductive RequestFormat where
  | anthropic
  | openai
  deriving Repr, DecidableEq

/-- `router::TransformDirection`. -/
inductive TransformDirection where
  | anthropicToOpenAI
  | openAIToAnthropic
  deriving Repr, DecidableEq

/-- `router::RoutingDecision`. -/
structure RoutingDecision where
  backend : Backend
  needs_transform : Bool
  transform_direction : Option TransformDirection
  deriving Repr, DecidableEq

/-- `RoutingDecision::infer_backend_from_model`. -/
def infer_backend_from_model (model : String) : Backend :=
  let model_lower := lowerStr model
  if strStartsWith model_lower "claude"
      || strContains model_lower "anthropic/"
      || strContains model_lower "anthropic-" then
    Backend.anthropic
  else if strStartsWith model_lower "gpt"
      || strStartsWith model_lower "o1"
      || strStartsWith model_lower "o3"
      || strContains model_lower "openai/"
      || strStartsWith model_lower "text-"
      || strStartsWith model_lower "davinci"
      || strStartsWith model_lower "curie"
      || strStartsWith model_lower "babbage"
      || strStartsWith model_lower "ada" then
    Backend.openai
  else
    Backend.openai

/-- `RoutingDecision::decide_transform_mode`. -/
def decide_transform_mode (request_format : RequestFormat) (config : Config) :
    Except ProxyError RoutingDecision :=
  match request_format with
  | RequestFormat.anthropic =>
    if config.base_url.isNone then
      Except.error (ProxyError.configErr "UPSTREAM_BASE_URL is required in Transform mode")
    else
      Except.ok ⟨Backend.upstream, true, some TransformDirection.anthropicToOpenAI⟩
  | RequestFormat.openai =>
    Except.error (ProxyError.transformErr
      "OpenAI endpoint is not supported in Transform mode. Please use /v1/messages or change ROUTING_MODE to 'auto' or 'gateway'.")

/-- `RoutingDecision::decide_passthrough_mode`. -/
def decide_passthrough_mode (request_format : RequestFormat) (config : Config) :
    Except ProxyError RoutingDecision :=
  match request_format with
  | RequestFormat.anthropic =>
    if config.anthropic_base_url.isNone || config.anthropic_api_key.isNone then
      Except.error (ProxyError.configErr
        "ANTHROPIC_BASE_URL and ANTHROPIC_API_KEY are required in Passthrough mode")
    else
      Except.ok ⟨Backend.anthropic, false, none⟩
  | RequestFormat.openai =>
    Except.error (ProxyError.transformErr
      "OpenAI endpoint is not supported in Passthrough mode. Please use /v1/messages or change ROUTING_MODE to 'auto' or 'gateway'.")

/-- `RoutingDecision::decide_auto_mode`. -/
def decide_auto_mode (request_format : RequestFormat) (model : String) (config : Config) :
    Except ProxyError RoutingDecision :=
  let target_backend := infer_backend_from_model model
  match request_format, target_backend with
  | RequestFormat.anthropic, Backend.anthropic =>
    if config.anthropic_base_url.isNone || config.anthropic_api_key.isNone then
      Except.error (ProxyError.configErr
        "ANTHROPIC_BASE_URL and ANTHROPIC_API_KEY are required for Claude models")
    else
      Except.ok ⟨Backend.anthropic, false, none⟩
  | RequestFormat.openai, Backend.openai =>
    if config.openai_base_url.isNone || config.openai_api_key.isNone then
      Except.error (ProxyError.configErr
        "OPENAI_BASE_URL and OPENAI_API_KEY are required for OpenAI models")
    else
      Except.ok ⟨Backend.openai, false, none⟩
  | RequestFormat.anthropic, Backend.openai =>
    if config.openai_base_url.isSome && config.openai_api_key.isSome then
      Except.ok ⟨Backend.openai, true, some TransformDirection.anthropicToOpenAI⟩
    else if config.base_url.isSome then
      Except.ok ⟨Backend.upstream, true, some TransformDirection.anthropicToOpenAI⟩
    else
      Except.error (ProxyError.configErr
        "No OpenAI-compatible backend configured. Set OPENAI_BASE_URL + OPENAI_API_KEY or UPSTREAM_BASE_URL.")
  | RequestFormat.openai, Backend.anthropic =>
    if config.anthropic_base_url.isNone || config.anthropic_api_key.isNone then
      Except.error (ProxyError.configErr
        "ANTHROPIC_BASE_URL and ANTHROPIC_API_KEY are required for Claude models")
    else
      Except.ok ⟨Backend.anthropic, true, some TransformDirection.openAIToAnthropic⟩
  | _, _ => Except.error (ProxyError.internalErr "Invalid routing combination")

/-- `RoutingDecision::decide`. -/
def RoutingDecision.decide (request_format : RequestFormat) (model : String)
    (config : Config) : Except ProxyError RoutingDecision :=
  match config.routing_mode with
  | RoutingMode.transformMode => decide_transform_mode request_format config
  | RoutingMode.passthrough => decide_passthrough_mode request_format config
  | RoutingMode.auto => decide_auto_mode request_format model config
  | RoutingMode.gateway => decide_auto_mode request_format model config

/-! ## Anthropic data model (src/models/anthropic.rs) -/

/-- `anthropic::SystemMessage`. -/
structure SystemMessage where
  message_type : String
  text : String
  cache_control : Option Json
  deriving Repr

/-- `anthropic::SystemPrompt`. -/
inductive SystemPrompt where
  | single (s : String)
  | multiple (ms : List SystemMessage)
  deriving Repr

/-- `anthropic::ImageSource`. -/
structure ImageSource where
  source_type : String
  media_type : String
  data : String
  deriving Repr, DecidableEq

/-- `anthropic::ToolResultBlock`. -/
inductive ToolResultBlock where
  | text (text : String)
  | image (source : ImageSource)
  deriving Repr, DecidableEq

/-- `anthropic::ToolResultContent`. -/
inductive ToolResultContent where
  | text (s : String)
  | blocks (bs : List ToolResultBlock)
  deriving Repr, DecidableEq

/-- `anthropic::ToolResultContent::to_string_content`. -/
def ToolResultContent.to_string_content : ToolResultContent → String
  | ToolResultContent.text s => s
  | ToolResultContent.blocks bs =>
    String.intercalate "\n" (bs.filterMap fun b =>
      match b with
      | ToolResultBlock.text t => some t
      | ToolResultBlock.image _ => some "[image]")

/-- `anthropic::ContentBlock`. -/
inductive ContentBlock where
  | text (text : String) (cache_control : Option Json)
  | image (source : ImageSource)
  | toolUse (id : String) (name : String) (input : Json)
  | toolResult (tool_use_id : String) (content : ToolResultContent) (is_error : Option Bool)
  | thinking (thinking : String)
  deriving Repr

/-- `anthropic::MessageContent`. -/
inductive AMessageContent where
  | text (s : String)
  | blocks (bs : List ContentBlock)
  deriving Repr

/-- `anthropic::Message`. -/
structure AMessage where
  role : String
  content : AMessageContent
  deriving Repr

/-- `anthropic::Tool`. -/
structure ATool where
  name : String
  description : Option String
  input_schema : Json
  tool_type : Option String
  deriving Repr

/-- `anthropic::AnthropicRequest`. -/
structure AnthropicRequest where
  model : String
  messages : List AMessage
  max_tokens : Nat
  system : Option SystemPrompt
  temperature : Option F32
  top_p : Option F32
  top_k : Option Nat
  stop_sequences : Option (List String)
  stream : Option Bool
  tools : Option (List ATool)
  metadata : Option Json
  extra : Json
  deriving Repr

/-- `anthropic::Usage`. -/
structure AUsage where
  input_tokens : Nat
  output_tokens : Nat
  deriving Repr, DecidableEq

/-- `anthropic::ResponseContent`. -/
inductive ResponseContent where
  | text (content_type : String) (text : String)
  | toolUse (content_type : String) (id : String) (name : String) (input : Json)
  | thinking (content_type : String) (thinking : String)
  deriving Repr

/-- `anthropic::AnthropicResponse`. -/
structure AnthropicResponse where
  id : String
  response_type : String
  role : String
  content : List ResponseContent
  model : String
  stop_reason : Option String
  stop_sequence : Option String
  usage : AUsage
  deriving Repr

/-! ## OpenAI data model

Modelled from the spec: `src/models/openai.rs` is not in the source tree.
The field layout follows §3 of the spec (O-Request / O-Response) and the
constructor and field uses in the transformers and stream translators. -/

/-- Modelled from the spec: `openai::ImageUrl`. -/
structure OImageUrl where
  url : String
  deriving Repr, DecidableEq

/-- Modelled from the spec: `openai::ContentPart` (`Text{text}` / `ImageUrl{url}`). -/
inductive ContentPart where
  | text (text : String)
  | imageUrl (image_url : OImageUrl)
  deriving Repr, DecidableEq

/-- Modelled from the spec: `openai::MessageContent` (string or parts). -/
inductive OMessageContent where
  | text (s : String)
  | parts (ps : List ContentPart)
  deriving Repr, DecidableEq

/-- Modelled from the spec: `openai::FunctionCall` (`{name, arguments:string-of-json}`). -/
structure FunctionCall where
  name : String
  arguments : String
  deriving Repr, DecidableEq

/-- Modelled from the spec: `openai::ToolCall` (`{id, type:"function", function}`). -/
structure ToolCall where
  id : String
  call_type : String
  function : FunctionCall
  deriving Repr, DecidableEq

/-- Modelled from the spec: `openai::Message`
(`{role, content?, tool_calls?, tool_call_id?, name?}`). -/
structure OMessage where
  role : String
  content : Option OMessageContent
  tool_calls : Option (List ToolCall)
  tool_call_id : Option String
  name : Option String
  deriving Repr, DecidableEq

/-- Modelled from the spec: `openai::Function` (a tool's function declaration). -/
structure OFunction where
  name : String
  description : Option String
  parameters : Json
  deriving Repr

/-- Modelled from the spec: `openai::Tool` (`{type:"function", function}`). -/
structure OTool where
  tool_type : String
  function : OFunction
  deriving Repr

/-- Modelled from the spec: `openai::OpenAIRequest`. -/
structure OpenAIRequest where
  model : String
  messages : List OMessage
  max_tokens : Option Nat
  temperature : Option F32
  top_p : Option F32
  stop : Option (List String)
  stream : Option Bool
  tools : Option (List OTool)
  tool_choice : Option Json
  reasoning_effort : Option String
  deriving Repr

/-- Modelled from the spec: `openai::Usage`. -/
structure OUsage where
  prompt_tokens : Nat
  completion_tokens : Nat
  total_tokens : Nat
  deriving Repr, DecidableEq

/-- Modelled from the spec: `openai::ChoiceMessage` (role, flat content, tool calls). -/
structure ChoiceMessage where
  role : String
  content : Option String
  tool_calls : Option (List ToolCall)
  deriving Repr, DecidableEq

/-- Modelled from the spec: `openai::Choice`. -/
structure Choice where
  index : Nat
  message : ChoiceMessage
  finish_reason : Option String
  deriving Repr, DecidableEq

/-- Modelled from the spec: `openai::OpenAIResponse`. -/
structure OpenAIResponse where
  id : String
  object : String
  created : Nat
  model : String
  choices : List Choice
  usage : OUsage
  system_fingerprint : Option String
  deriving Repr, DecidableEq

/-! ## Transform utilities (src/transform/utils.rs) -/

/-- `utils::map_stop_reason`: OpenAI `finish_reason` → Anthropic `stop_reason`. -/
def map_stop_reason (finish_reason : Option String) : Option String :=
  finish_reason.map fun r =>
    match r with
    | "tool_calls" => "tool_use"
    | "stop" => "end_turn"
    | "length" => "max_tokens"
    | _ => "end_turn"

/-- The Anthropic → OpenAI stop-reason mapping, inlined twice in the source
(`response/anthropic_to_openai.rs` and the `message_delta` arm of
`streaming/anthropic_to_openai.rs`), identical in both places. -/
def map_finish_reason_ao (stop_reason : String) : String :=
  match stop_reason with
  | "end_turn" => "stop"
  | "tool_use" => "tool_calls"
  | "max_tokens" => "length"
  | _ => "stop"

/-- `utils::parse_data_url` (duplicated verbatim in
`request/openai_to_anthropic.rs`): split `data:MEDIA[;params],DATA`. -/
def parse_data_url (url : String) : Option (String × String) :=
  if strStartsWith url "data:" then
    match splitFirst ',' (url.data.drop 5) with
    | none => none
    | some (meta, data) =>
      let media_type : List Char :=
        match splitFirst ';' meta with
        | some (m, _) => m
        | none => meta
      some (⟨media_type⟩, ⟨data⟩)
  else
    none

/-! ## Request transformer: OpenAI → Anthropic
(src/transform/request/openai_to_anthropic.rs) -/

/-- The text extracted from an O message content in the `system` and `tool`
arms of `openai_to_anthropic_request`: a string as is; parts filtered to
their `Text` members and joined by newline. -/
def o_content_text : OMessageContent → String
  | OMessageContent.text t => t
  | OMessageContent.parts ps =>
    String.intercalate "\n" (ps.filterMap fun p =>
      match p with
      | ContentPart.text t => some t
      | _ => none)

/-- `openai_to_anthropic::convert_openai_message_content`, parametrised over
the serde JSON parser used for tool-call arguments
(`serde_json::from_str(...).unwrap_or(json!({}))`). -/
def convert_openai_message_content (parse_json : String → Option Json)
    (msg : OMessage) : AMessageContent :=
  let content_blocks : List ContentBlock :=
    match msg.content with
    | none => []
    | some (OMessageContent.text t) =>
      if t = "" then [] else [ContentBlock.text t none]
    | some (OMessageContent.parts ps) =>
      ps.filterMap fun p =>
        match p with
        | ContentPart.text t => some (ContentBlock.text t none)
        | ContentPart.imageUrl iu =>
          (parse_data_url iu.url).map fun md =>
            ContentBlock.image ⟨"base64", md.1, md.2⟩
  let blocks : List ContentBlock :=
    content_blocks ++
      match msg.tool_calls with
      | none => []
      | some tcs =>
        tcs.map fun tc =>
          ContentBlock.toolUse tc.id tc.function.name
            ((parse_json tc.function.arguments).getD (Json.obj []))
  match blocks with
  | [ContentBlock.text t _] => AMessageContent.text t
  | [] => AMessageContent.text ""
  | bs => AMessageContent.blocks bs

/-- One step of the message loop of `openai_to_anthropic_request`,
accumulating the converted A messages and the (last-written) system prompt. -/
def o_to_a_message_step (parse_json : String → Option Json)
    (acc : List AMessage × Option SystemPrompt) (msg : OMessage) :
    List AMessage × Option SystemPrompt :=
  if msg.role = "system" then
    match msg.content with
    | some content => (acc.1, some (SystemPrompt.single (o_content_text content)))
    | none => acc
  else if msg.role = "user" ∨ msg.role = "assistant" then
    (acc.1 ++ [⟨msg.role, convert_openai_message_content parse_json msg⟩], acc.2)
  else if msg.role = "tool" then
    match msg.content, msg.tool_call_id with
    | some content, some tool_call_id =>
      (acc.1 ++ [⟨"user", AMessageContent.blocks
        [ContentBlock.toolResult tool_call_id
          (ToolResultContent.text (o_content_text content)) none]⟩], acc.2)
    | _, _ => acc
  else
    acc

/-- `openai_to_anthropic::openai_to_anthropic_request`.  The Rust function
returns `ProxyResult` but has no error path, so it is embedded total. -/
def openai_to_anthropic_request (parse_json : String → Option Json)
    (req : OpenAIRequest) (config : Config) : AnthropicRequest :=
  let folded := req.messages.foldl (o_to_a_message_step parse_json) ([], none)
  let tools : Option (List ATool) :=
    req.tools.map fun ts =>
      ts.map fun t => ⟨t.function.name, t.function.description, t.function.parameters, none⟩
  let model := config.completion_model.getD req.model
  { model := model
    messages := folded.1
    max_tokens := req.max_tokens.getD 4096
    system := folded.2
    temperature := req.temperature
    top_p := req.top_p
    top_k := none
    stop_sequences := req.stop
    stream := req.stream
    tools := tools
    metadata := none
    extra := Json.null }

/-! ## Request transformer: Anthropic → OpenAI
(src/transform/request/anthropic_to_openai.rs) -/

/-- One step of the block loop of `anthropic_to_openai::convert_message`,
accumulating already-emitted messages, pending content parts and pending
tool calls; parametrised over serde serialisation of tool inputs. -/
def a_to_o_block_step (stringify : Json → String)
    (acc : List OMessage × List ContentPart × List ToolCall) (b : ContentBlock) :
    List OMessage × List ContentPart × List ToolCall :=
  match b with
  | ContentBlock.text t _ => (acc.1, acc.2.1 ++ [ContentPart.text t], acc.2.2)
  | ContentBlock.image source =>
    (acc.1,
     acc.2.1 ++ [ContentPart.imageUrl
       ⟨"data:" ++ source.media_type ++ ";base64," ++ source.data⟩],
     acc.2.2)
  | ContentBlock.toolUse id name input =>
    (acc.1, acc.2.1, acc.2.2 ++ [⟨id, "function", ⟨name, stringify input⟩⟩])
  | ContentBlock.toolResult tool_use_id content _ =>
    (acc.1 ++ [⟨"tool", some (OMessageContent.text content.to_string_content),
      none, some tool_use_id, none⟩],
     acc.2.1, acc.2.2)
  | ContentBlock.thinking _ => acc

/-- `anthropic_to_openai::convert_message`: one A message becomes one or more
O messages.  The only Rust error path is serde serialisation of a tool
input, which the total `stringify` parameter cannot hit. -/
def convert_message (stringify : Json → String) (msg : AMessage) : List OMessage :=
  match msg.content with
  | AMessageContent.text t => [⟨msg.role, some (OMessageContent.text t), none, none, none⟩]
  | AMessageContent.blocks blocks =>
    let folded := blocks.foldl (a_to_o_block_step stringify) ([], [], [])
    let result := folded.1
    let parts := folded.2.1
    let tool_calls := folded.2.2
    if parts.isEmpty ∧ tool_calls.isEmpty then
      result
    else
      let content : Option OMessageContent :=
        if parts.isEmpty then none
        else
          match parts with
          | [ContentPart.text t] => some (OMessageContent.text t)
          | _ => some (OMessageContent.parts parts)
      result ++ [⟨msg.role, content,
        if tool_calls.isEmpty then none else some tool_calls, none, none⟩]

/-! ## Response transformer: Anthropic → OpenAI
(src/transform/response/anthropic_to_openai.rs) -/

/-- One step of the content loop of `anthropic_to_openai_response`: `Text`
overwrites the accumulated content, `ToolUse` appends a tool call,
`Thinking` is dropped. -/
def a_to_o_response_step (stringify : Json → String)
    (acc : Option String × List ToolCall) (block : ResponseContent) :
    Option String × List ToolCall :=
  match block with
  | ResponseContent.text _ t => (some t, acc.2)
  | ResponseContent.toolUse _ id name input =>
    (acc.1, acc.2 ++ [⟨id, "function", ⟨name, stringify input⟩⟩])
  | ResponseContent.thinking _ _ => acc

/-- `response/anthropic_to_openai::anthropic_to_openai_response`,
parametrised over serde serialisation and over the clock
(`SystemTime::now` → `now`).  The Rust function returns `ProxyResult` but
has no error path. -/
def anthropic_to_openai_response (stringify : Json → String) (now : Nat)
    (resp : AnthropicResponse) : OpenAIResponse :=
  let folded := resp.content.foldl (a_to_o_response_step stringify) (none, [])
  let content := folded.1
  let tool_calls := folded.2
  let finish_reason := resp.stop_reason.map map_finish_reason_ao
  { id := resp.id
    object := "chat.completion"
    created := now
    model := resp.model
    choices := [⟨0, ⟨"assistant", content,
      if tool_calls.isEmpty then none else some tool_calls⟩, finish_reason⟩]
    usage := ⟨resp.usage.input_tokens, resp.usage.output_tokens,
      resp.usage.input_tokens + resp.usage.output_tokens⟩
    system_fingerprint := none }

/-- The content of a response's first choice (`choices[0].message.content`). -/
def first_choice_content (resp : OpenAIResponse) : Option String :=
  match resp.choices with
  | [] => none
  | c :: _ => c.message.content

/-! ## OpenAI stream chunks

Modelled from the spec: the `openai::StreamChunk` family is declared in the
absent `src/models/openai.rs`; the shape follows §4.4 and the field uses in
`streaming/openai_to_anthropic.rs`. -/

/-- Modelled from the spec: the `function` part of a streamed tool-call delta. -/
structure OFunctionDelta where
  name : Option String
  arguments : Option String
  deriving Repr, DecidableEq

/-- Modelled from the spec: one entry of a streamed `delta.tool_calls` array. -/
structure OToolCallDelta where
  id : Option String
  function : Option OFunctionDelta
  deriving Repr, DecidableEq

/-- Modelled from the spec: a streamed chunk's `delta`, carrying optional
`reasoning`, `content` and `tool_calls` fields. -/
structure OStreamDelta where
  reasoning : Option String
  content : Option String
  tool_calls : Option (List OToolCallDelta)
  deriving Repr, DecidableEq

/-- Modelled from the spec: one choice of a streamed O chunk. -/
structure OStreamChoice where
  delta : OStreamDelta
  finish_reason : Option String
  deriving Repr, DecidableEq

/-- Modelled from the spec: `openai::StreamChunk`. -/
structure OStreamChunk where
  id : String
  model : String
  choices : List OStreamChoice
  usage : Option OUsage
  deriving Repr, DecidableEq

/-! ## Stream translator: OpenAI → Anthropic
(src/streaming/openai_to_anthropic.rs)

The translator is embedded at the granularity of parsed SSE `data:` lines:
`OLine.done` is a `data: [DONE]` line, `OLine.chunk` a line whose JSON
parses as a stream chunk, `OLine.malformed` a line that is skipped (not a
`data:` line, or unparseable JSON).  Byte-level frame reassembly only
groups lines and leaves the per-line behaviour unchanged. -/

/-- The kind of an A content block opened by the O → A translator. -/
inductive ABlockKind where
  | text
  | thinking
  | toolUse (id : String) (name : String)
  deriving Repr, DecidableEq

/-- The delta payload of an emitted `content_block_delta` event. -/
inductive AOutDelta where
  | textDelta (text : String)
  | thinkingDelta (thinking : String)
  | inputJsonDelta (partial_json : String)
  deriving Repr, DecidableEq

/-- The A-format SSE events emitted by the O → A translator, one constructor
per `event: .../data: ...` frame shape built in the source. -/
inductive AOut where
  | messageStart (id : String) (model : String)
  | blockStart (index : Nat) (block : ABlockKind)
  | blockDelta (index : Nat) (delta : AOutDelta)
  | blockStop (index : Nat)
  | messageDelta (stop_reason : Option String) (output_tokens : Option Nat)
  | messageStop
  | errorEvent (message : String)
  deriving Repr, DecidableEq

/-- The local mutable state of the O → A translator's loop
(`message_id`, `current_model`, `content_index`, `tool_call_id`,
`_tool_call_name`, `tool_call_args`, `has_sent_message_start`,
`current_block_type`). -/
structure OAState where
  message_id : Option String := none
  current_model : Option String := none
  content_index : Nat := 0
  tool_call_id : Option String := none
  tool_call_name : Option String := none
  tool_call_args : String := ""
  has_sent_message_start : Bool := false
  current_block_type : Option String := none
  deriving Repr, DecidableEq

/-- The `message_start` emission at the top of the per-choice block. -/
def oa_emit_message_start (st : OAState) : OAState × List AOut :=
  if st.has_sent_message_start then
    (st, [])
  else
    ({ st with has_sent_message_start := true },
     [AOut.messageStart (st.message_id.getD "") (st.current_model.getD "")])

/-- The `reasoning` branch: open a thinking block only when no block is
open, then emit a `thinking_delta` at the current index. -/
def oa_emit_reasoning (st : OAState) (reasoning : Option String) : OAState × List AOut :=
  match reasoning with
  | none => (st, [])
  | some r =>
    let opened :=
      if st.current_block_type.isNone then
        ({ st with current_block_type := some "thinking" },
         [AOut.blockStart st.content_index ABlockKind.thinking])
      else
        (st, [])
    (opened.1, opened.2 ++ [AOut.blockDelta opened.1.content_index (AOutDelta.thinkingDelta r)])

/-- The `content` branch: on a non-empty text delta, switch to a text block
(stopping the current block and bumping the index when one of another kind
is open), then emit a `text_delta`. -/
def oa_emit_content (st : OAState) (content : Option String) : OAState × List AOut :=
  match content with
  | none => (st, [])
  | some c =>
    if c = "" then
      (st, [])
    else
      let switched :=
        if st.current_block_type ≠ some "text" then
          let stopped :=
            if st.current_block_type.isSome then
              ({ st with content_index := st.content_index + 1 },
               [AOut.blockStop st.content_index])
            else
              (st, [])
          ({ stopped.1 with current_block_type := some "text" },
           stopped.2 ++ [AOut.blockStart stopped.1.content_index ABlockKind.text])
        else
          (st, [])
      (switched.1,
       switched.2 ++ [AOut.blockDelta switched.1.content_index (AOutDelta.textDelta c)])

/-- One entry of the `tool_calls` loop: an `id` closes any open block and
resets the pending tool call; a `function.name` opens a `tool_use` block; a
`function.arguments` fragment accumulates and emits an `input_json_delta`. -/
def oa_emit_tool_call (st : OAState) (tc : OToolCallDelta) : OAState × List AOut :=
  let afterId :=
    match tc.id with
    | none => (st, [])
    | some id =>
      let stopped :=
        if st.current_block_type.isSome then
          ({ st with content_index := st.content_index + 1 },
           [AOut.blockStop st.content_index])
        else
          (st, [])
      ({ stopped.1 with tool_call_id := some id, tool_call_args := "" }, stopped.2)
  match tc.function with
  | none => afterId
  | some f =>
    let afterName :=
      match f.name with
      | none => (afterId.1, [])
      | some name =>
        ({ afterId.1 with tool_call_name := some name, current_block_type := some "tool_use" },
         [AOut.blockStart afterId.1.content_index
           (ABlockKind.toolUse (afterId.1.tool_call_id.getD "") name)])
    let afterArgs :=
      match f.arguments with
      | none => (afterName.1, [])
      | some args =>
        ({ afterName.1 with tool_call_args := afterName.1.tool_call_args ++ args },
         [AOut.blockDelta afterName.1.content_index (AOutDelta.inputJsonDelta args)])
    (afterArgs.1, afterId.2 ++ afterName.2 ++ afterArgs.2)

/-- The `tool_calls` branch: fold the loop over the array's entries. -/
def oa_emit_tool_calls (st : OAState) (tcs : Option (List OToolCallDelta)) :
    OAState × List AOut :=
  match tcs with
  | none => (st, [])
  | some l =>
    l.foldl (fun acc tc =>
      let step := oa_emit_tool_call acc.1 tc
      (step.1, acc.2 ++ step.2)) (st, [])

/-- The `finish_reason` branch: close any open block (without clearing
`current_block_type` or bumping the index), then emit `message_delta` with
the mapped stop reason and the chunk's `completion_tokens` usage. -/
def oa_emit_finish (st : OAState) (finish_reason : Option String)
    (usage : Option OUsage) : OAState × List AOut :=
  match finish_reason with
  | none => (st, [])
  | some fr =>
    let stops := if st.current_block_type.isSome then [AOut.blockStop st.content_index] else []
    (st, stops ++ [AOut.messageDelta (map_stop_reason (some fr))
      (usage.map fun u => u.completion_tokens)])

/-- The five emission phases run on a chunk's first choice, in source
order. -/
def oa_process_choice (st : OAState) (choice : OStreamChoice) (usage : Option OUsage) :
    OAState × List AOut :=
  let p1 := oa_emit_message_start st
  let p2 := oa_emit_reasoning p1.1 choice.delta.reasoning
  let p3 := oa_emit_content p2.1 choice.delta.content
  let p4 := oa_emit_tool_calls p3.1 choice.delta.tool_calls
  let p5 := oa_emit_finish p4.1 choice.finish_reason usage
  (p5.1, p1.2 ++ p2.2 ++ p3.2 ++ p4.2 ++ p5.2)

/-- Processing of one parsed O chunk by the O → A translator: capture id and
model, then run the five emission phases on the first choice. -/
def oa_process_chunk (st : OAState) (c : OStreamChunk) : OAState × List AOut :=
  let st :=
    if st.message_id.isNone then { st with message_id := some c.id } else st
  let st :=
    if st.current_model.isNone then { st with current_model := some c.model } else st
  match c.choices.head? with
  | none => (st, [])
  | some choice => oa_process_choice st choice c.usage

/-- One parsed SSE `data:` line of the upstream O stream. -/
inductive OLine where
  | done
  | chunk (c : OStreamChunk)
  | malformed
  deriving Repr, DecidableEq

/-- Processing of one line: `[DONE]` emits `message_stop` (and the loop
continues), a parsed chunk runs the chunk machine, anything else is skipped. -/
def oa_process_line (st : OAState) (l : OLine) : OAState × List AOut :=
  match l with
  | OLine.done => (st, [AOut.messageStop])
  | OLine.malformed => (st, [])
  | OLine.chunk c => oa_process_chunk st c

/-- Processing of a list of lines, accumulating the emitted events. -/
def oa_process_lines (st : OAState) (ls : List OLine) : OAState × List AOut :=
  ls.foldl (fun acc l =>
    let step := oa_process_line acc.1 l
    (step.1, acc.2 ++ step.2)) (st, [])

/-- `streaming/openai_to_anthropic::create_stream` on an error-free upstream
stream, at line granularity. -/
def oa_translate (ls : List OLine) : List AOut :=
  (oa_process_lines {} ls).2

/-- One item of the upstream byte stream for the O → A translator: a chunk
of bytes whose completed frames carry the given data lines, or a transport
error. -/
inductive OStreamItem where
  | bytes (ls : List OLine)
  | transportError (msg : String)
  deriving Repr

/-- The O → A translator's outer loop over upstream items: a transport error
synthesises a single `event: error` frame with
`{type:"error", error:{type:"stream_error", message:...}}` and breaks. -/
def oa_run_stream : OAState → List OStreamItem → List AOut
  | _, [] => []
  | st, OStreamItem.bytes ls :: rest =>
    let step := oa_process_lines st ls
    step.2 ++ oa_run_stream step.1 rest
  | _, OStreamItem.transportError m :: _ =>
    [AOut.errorEvent ("Stream error: " ++ m)]

/-! ## Stream translator: Anthropic → OpenAI
(src/streaming/anthropic_to_openai.rs)

Embedded at the granularity of parsed A events (the JSON of one SSE
`data:` line); lines that fail to parse and events of unmatched types are
the `other` constructor, which the source skips. -/

/-- The `content_block` payload of a parsed A `content_block_start` event. -/
inductive ABlockStartIn where
  | text
  | toolUse (id : String) (name : String)
  | thinking
  | otherBlock
  deriving Repr, DecidableEq

/-- The `delta` payload of a parsed A `content_block_delta` event. -/
inductive ADeltaIn where
  | textDelta (text : String)
  | inputJsonDelta (partial_json : String)
  | thinkingDelta (thinking : String)
  | otherDelta
  deriving Repr, DecidableEq

/-- A parsed A stream event as read by the A → O translator. -/
inductive AParsedEvent where
  | messageStart (id : String) (model : String)
  | contentBlockStart (index : Nat) (block : ABlockStartIn)
  | contentBlockDelta (index : Nat) (delta : ADeltaIn)
  | contentBlockStop (index : Nat)
  | messageDelta (stop_reason : Option String)
  | messageStop
  | other
  deriving Repr, DecidableEq

/-- The delta of an emitted O chunk, one constructor per `json!` delta shape
in the source. -/
inductive ODeltaOut where
  | contentDelta (content : String)
  | toolCallOpen (id : String) (name : String)
  | toolCallArgs (arguments : String)
  | emptyDelta
  deriving Repr, DecidableEq

/-- An emitted O `chat.completion.chunk` (id, created, model, the single
choice's delta and finish_reason). -/
structure OChunkOut where
  id : String
  created : Nat
  model : String
  delta : ODeltaOut
  finish_reason : Option String
  deriving Repr, DecidableEq

/-- An output frame of the A → O translator: a chunk frame
(`data: {...}`) or the terminator (`data: [DONE]`). -/
inductive OFrame where
  | chunk (c : OChunkOut)
  | doneFrame
  deriving Repr, DecidableEq

/-- The local mutable state of the A → O translator
(`message_id`, `model`, `current_content`). -/
structure AOStateRec where
  message_id : String := ""
  model : String := ""
  current_content : String := ""
  deriving Repr, DecidableEq

/-- Processing of one parsed A event by the A → O translator. -/
def ao_process_event (now : Nat) (st : AOStateRec) (e : AParsedEvent) :
    AOStateRec × List OFrame :=
  match e with
  | AParsedEvent.messageStart id model =>
    ({ st with message_id := id, model := model }, [])
  | AParsedEvent.contentBlockDelta _ (ADeltaIn.textDelta t) =>
    ({ st with current_content := st.current_content ++ t },
     [OFrame.chunk ⟨st.message_id, now, st.model, ODeltaOut.contentDelta t, none⟩])
  | AParsedEvent.contentBlockDelta _ (ADeltaIn.inputJsonDelta j) =>
    (st, [OFrame.chunk ⟨st.message_id, now, st.model, ODeltaOut.toolCallArgs j, none⟩])
  | AParsedEvent.contentBlockDelta _ _ => (st, [])
  | AParsedEvent.contentBlockStart _ (ABlockStartIn.toolUse id name) =>
    (st, [OFrame.chunk ⟨st.message_id, now, st.model, ODeltaOut.toolCallOpen id name, none⟩])
  | AParsedEvent.contentBlockStart _ _ => (st, [])
  | AParsedEvent.contentBlockStop _ => (st, [])
  | AParsedEvent.messageDelta (some stop_reason) =>
    (st, [OFrame.chunk ⟨st.message_id, now, st.model, ODeltaOut.emptyDelta,
      some (map_finish_reason_ao stop_reason)⟩])
  | AParsedEvent.messageDelta none => (st, [])
  | AParsedEvent.messageStop => (st, [OFrame.doneFrame])
  | AParsedEvent.other => (st, [])

/-- Processing of a list of parsed A events. -/
def ao_process_events (now : Nat) (st : AOStateRec) (es : List AParsedEvent) :
    AOStateRec × List OFrame :=
  es.foldl (fun acc e =>
    let step := ao_process_event now acc.1 e
    (step.1, acc.2 ++ step.2)) (st, [])

/-- `streaming/anthropic_to_openai::create_stream` on an error-free upstream
stream, at event granularity. -/
def ao_translate (now : Nat) (es : List AParsedEvent) : List OFrame :=
  (ao_process_events now {} es).2

/-- One item of the upstream byte stream for the A → O translator. -/
inductive AStreamItem where
  | events (es : List AParsedEvent)
  | transportError (msg : String)
  deriving Repr

/-- The A → O translator's outer loop: a transport error is logged and the
loop breaks without emitting anything. -/
def ao_run_stream (now : Nat) : AOStateRec → List AStreamItem → List OFrame
  | _, [] => []
  | st, AStreamItem.events es :: rest =>
    let step := ao_process_events now st es
    step.2 ++ ao_run_stream now step.1 rest
  | _, AStreamItem.transportError _ :: _ => []

/-! ## Specification-side definitions

The following definitions state properties of the emitted values in the
spec's vocabulary; they are compared against the embedded code. -/

/-- Whether an emitted A event is a block-lifecycle event. -/
def AOut.isBlockEvent : AOut → Bool
  | AOut.blockStart _ _ => true
  | AOut.blockDelta _ _ => true
  | AOut.blockStop _ => true
  | _ => false

/-- Whether an emitted A event is `message_start`. -/
def AOut.isMessageStart : AOut → Bool
  | AOut.messageStart _ _ => true
  | _ => false

/-- One step of the block-lifecycle checker.  The checker state is
`(next, open)`: `next` is the least index a future `content_block_start`
may use, `open` the index of the currently open block; `none` is the
rejecting state.  Non-block events pass through. -/
def chkStep : Option (Nat × Option Nat) → AOut → Option (Nat × Option Nat)
  | none, _ => none
  | some (n, none), AOut.blockStart i _ => if n ≤ i then some (i + 1, some i) else none
  | some (_, some _), AOut.blockStart _ _ => none
  | some (n, some i), AOut.blockDelta j _ => if j = i then some (n, some i) else none
  | some (_, none), AOut.blockDelta _ _ => none
  | some (n, some i), AOut.blockStop j => if j = i then some (n, none) else none
  | some (_, none), AOut.blockStop _ => none
  | some s, _ => some s

/-- The lifecycle check of an event list: every `content_block_start` at
index `i` is followed, before any later start, by zero or more deltas at
`i` and exactly one stop at `i`, with strictly increasing block indices,
and no block left open. -/
def wfBlocks (out : List AOut) : Bool :=
  match out.foldl chkStep (some (0, none)) with
  | some (_, none) => true
  | _ => false

/-- `message_start` precedes all block events: no block event occurs
before the first `message_start`. -/
def wfStartFirst (out : List AOut) : Bool :=
  (out.takeWhile fun e => !e.isMessageStart).all fun e => !e.isBlockEvent

/-- `message_stop` is the last event. -/
def wfStopLast (out : List AOut) : Bool :=
  out.getLast? == some AOut.messageStop

/-- Block-lifecycle well-formedness of an emitted A event stream, as stated
by the spec (§8, streaming property 8). -/
def wellFormedAStream (out : List AOut) : Bool :=
  wfBlocks out && wfStartFirst out && wfStopLast out

/-- The lifecycle-checker state matching a translator state: when a block
is open, the checker has that block's index open and the next fresh index
past it; when no block is open, the next fresh index is the current one. -/
def chkTarget (st : OAState) : Nat × Option Nat :=
  match st.current_block_type with
  | some _ => (st.content_index + 1, some st.content_index)
  | none => (st.content_index, none)

/-- The text of the last system-role O message that carries content, with
the message's text parts joined by newline (spec §4.2 O→A step 2, amended:
each system message overwrites the previous one). -/
def last_system_text : List OMessage → Option String
  | [] => none
  | m :: ms =>
    match last_system_text ms with
    | some t => some t
    | none =>
      if m.role = "system" then (m.content.map o_content_text) else none

/-- The text of the last `Text` block of an A response content list
(spec §4.3 A→O, amended: each `Text` block overwrites the previous one). -/
def last_text_block : List ResponseContent → Option String
  | [] => none
  | b :: bs =>
    match last_text_block bs with
    | some t => some t
    | none =>
      match b with
      | ResponseContent.text _ t => some t
      | _ => none

/-- Whether a request content block is a `Thinking` block. -/
def ContentBlock.isThinking : ContentBlock → Bool
  | ContentBlock.thinking _ => true
  | _ => false

/-- Whether a response content block is a `Thinking` block. -/
def ResponseContent.isThinking : ResponseContent → Bool
  | ResponseContent.thinking _ _ => true
  | _ => false

/-- The `content` carried by an emitted O frame, when its delta is a plain
content delta. -/
def OFrame.contentText : OFrame → Option String
  | OFrame.chunk c =>
    match c.delta with
    | ODeltaOut.contentDelta s => some s
    | _ => none
  | _ => none

/-- The text carried by a parsed A event, when it is a
`content_block_delta` with a `text_delta`. -/
def AParsedEvent.textDeltaText : AParsedEvent → Option String
  | AParsedEvent.contentBlockDelta _ (ADeltaIn.textDelta t) => some t
  | _ => none

/-- A "simple" streamed O choice for the amended streaming claim: no
tool calls and no finish reason in its delta. -/
def simpleChoice (ch : OStreamChoice) : Bool :=
  ch.delta.tool_calls.isNone && ch.finish_reason.isNone

/-- A "simple" streamed O chunk: its first choice (the only one the
translator reads), when present, is simple. -/
def simpleChunk (c : OStreamChunk) : Bool :=
  match c.choices.head? with
  | some ch => simpleChoice ch
  | none => true

/-- A finishing streamed O chunk: its first choice carries no tool calls
and a finish reason. -/
def finishChunk (c : OStreamChunk) : Bool :=
  match c.choices.head? with
  | some ch => ch.delta.tool_calls.isNone && ch.finish_reason.isSome
  | none => false

/-! ## Concrete sample inputs used by witnesses and counterexamples -/

/-- A Transform-mode configuration (mirrors the router test fixture). -/
def cfg_transform : Config :=
  { port := 3000, routing_mode := RoutingMode.transformMode
    anthropic_base_url := none, anthropic_api_key := none
    openai_base_url := none, openai_api_key := none
    base_url := some "https://api.example.com", api_key := some "test-key"
    reasoning_model := none, completion_model := none
    debug := false, verbose := false, log_raw_json := false }

/-- An Auto-mode configuration with both native backends configured. -/
def cfg_auto : Config :=
  { port := 3000, routing_mode := RoutingMode.auto
    anthropic_base_url := some "https://api.anthropic.com"
    anthropic_api_key := some "test-key"
    openai_base_url := some "https://api.openai.com"
    openai_api_key := some "test-key"
    base_url := none, api_key := none
    reasoning_model := none, completion_model := none
    debug := false, verbose := false, log_raw_json := false }

/-- An O message with plain text content and the given role. -/
def o_text_message (role text : String) : OMessage :=
  { role := role, content := some (OMessageContent.text text)
    tool_calls := none, tool_call_id := none, name := none }

/-- An O request whose message list carries two system messages, "A" then
"B", followed by a user message. -/
def req_two_systems : OpenAIRequest :=
  { model := "gpt-4"
    messages := [o_text_message "system" "A", o_text_message "system" "B",
      o_text_message "user" "Hello"]
    max_tokens := some 100, temperature := none, top_p := none
    stop := none, stream := none, tools := none, tool_choice := none
    reasoning_effort := none }

/-- An A response whose content holds two `Text` blocks, "A" then "B". -/
def resp_two_texts : AnthropicResponse :=
  { id := "msg_1", response_type := "message", role := "assistant"
    content := [ResponseContent.text "text" "A", ResponseContent.text "text" "B"]
    model := "claude-3", stop_reason := some "end_turn", stop_sequence := none
    usage := ⟨10, 5⟩ }

/-- A streamed O chunk whose single choice's delta carries only the given
fields. -/
def mk_chunk (id model : String) (reasoning content : Option String)
    (tool_calls : Option (List OToolCallDelta)) (finish : Option String)
    (usage : Option OUsage) : OStreamChunk :=
  { id := id, model := model
    choices := [{ delta := ⟨reasoning, content, tool_calls⟩, finish_reason := finish }]
    usage := usage }

/-- Counterexample input (a): a text delta, then a reasoning delta while
the text block is open, then a finish, then `[DONE]`. -/
def ls_reasoning_after_text : List OLine :=
  [OLine.chunk (mk_chunk "c1" "m" none (some "a") none none none),
   OLine.chunk (mk_chunk "c1" "m" (some "r") none none none none),
   OLine.chunk (mk_chunk "c1" "m" none none none (some "stop") none),
   OLine.done]

/-- Counterexample input (b): two chunks that each carry content and a
finish reason, then `[DONE]`. -/
def ls_double_finish : List OLine :=
  [OLine.chunk (mk_chunk "c1" "m" none (some "a") none (some "stop") none),
   OLine.chunk (mk_chunk "c1" "m" none (some "b") none (some "stop") none),
   OLine.done]

/-- Counterexample input (c): a text delta, then a tool-call delta carrying
a function name but no id, then a finish, then `[DONE]`. -/
def ls_name_only_tool : List OLine :=
  [OLine.chunk (mk_chunk "c1" "m" none (some "a") none none none),
   OLine.chunk (mk_chunk "c1" "m" none none
     (some [⟨none, some ⟨some "f", none⟩⟩]) none none),
   OLine.chunk (mk_chunk "c1" "m" none none none (some "stop") none),
   OLine.done]

/-! ## Helper lemmas -/

/-- `map_stop_reason` sends every string outside the three named ones to
`end_turn`. -/
theorem map_stop_reason_default (s : String) (h1 : s ≠ "stop")
    (h2 : s ≠ "tool_calls") (h3 : s ≠ "length") :
    map_stop_reason (some s) = some "end_turn" := by
  simp only [map_stop_reason, Option.map_some']

/-- `map_finish_reason_ao` sends every string outside the three named ones
to `stop`. -/
theorem map_finish_reason_ao_default (s : String) (h1 : s ≠ "end_turn")
    (h2 : s ≠ "tool_use") (h3 : s ≠ "max_tokens") :
    map_finish_reason_ao s = "stop" := by
  simp only [map_finish_reason_ao]

/-- `infer_backend_from_model` never selects the generic upstream. -/
theorem infer_backend_ne_upstream (model : String) :
    infer_backend_from_model model ≠ Backend.upstream := by
  unfold infer_backend_from_model
  dsimp only
  split
  · simp
  · split <;> simp

/-- The system component of the message fold of
`openai_to_anthropic_request`: the last system message with content wins;
when there is none, the accumulator is kept. -/
theorem foldl_system_component (p : String → Option Json) :
    ∀ (ms : List OMessage) (acc : List AMessage × Option SystemPrompt),
    (ms.foldl (o_to_a_message_step p) acc).2 =
      match last_system_text ms with
      | some t => some (SystemPrompt.single t)
      | none => acc.2 := by
  intro ms
  induction ms with
  | nil => intro acc; rfl
  | cons m ms ih =>
    intro acc
    rw [List.foldl_cons, ih]
    cases hl : last_system_text ms with
    | some t => simp only [last_system_text, hl]
    | none =>
      simp only [last_system_text, hl]
      unfold o_to_a_message_step
      split_ifs with hs h2 h3
      · cases m.content <;> rfl
      · rfl
      · cases m.content <;> cases m.tool_call_id <;> rfl
      · rfl

/-- The content component of the response fold of
`anthropic_to_openai_response`: the last `Text` block wins; when there is
none, the accumulator is kept. -/
theorem foldl_response_content (strf : Json → String) :
    ∀ (bs : List ResponseContent) (acc : Option String × List ToolCall),
    (bs.foldl (a_to_o_response_step strf) acc).1 =
      match last_text_block bs with
      | some t => some t
      | none => acc.1 := by
  intro bs
  induction bs with
  | nil => intro acc; rfl
  | cons b bs ih =>
    intro acc
    rw [List.foldl_cons, ih]
    cases hl : last_text_block bs with
    | some t => simp only [last_text_block, hl]
    | none =>
      simp only [last_text_block, hl]
      cases b <;> rfl

/-- Folding over a filtered list equals folding over the whole list when
the step function fixes every dropped element. -/
theorem foldl_filter_of_dropped_id {α β : Type _} (f : β → α → β) (p : α → Bool)
    (hid : ∀ (acc : β) (a : α), p a = false → f acc a = acc) :
    ∀ (l : List α) (acc : β), (l.filter p).foldl f acc = l.foldl f acc := by
  intro l
  induction l with
  | nil => intro acc; rfl
  | cons a l ih =>
    intro acc
    by_cases ha : p a = true
    · simp only [List.filter_cons, ha, if_true, List.foldl_cons]
      exact ih _
    · have ha2 : p a = false := by simpa using ha
      simp only [List.filter_cons, ha2, Bool.false_eq_true, if_false, List.foldl_cons,
        hid acc a ha2]
      exact ih acc

/-- The block fold of `convert_message` ignores `Thinking` blocks: folding
over the thinking-free sublist gives the same accumulator. -/
theorem a_to_o_fold_drops_thinking (strf : Json → String)
    (bs : List ContentBlock) (acc : List OMessage × List ContentPart × List ToolCall) :
    (bs.filter fun b => !b.isThinking).foldl (a_to_o_block_step strf) acc
      = bs.foldl (a_to_o_block_step strf) acc :=
  foldl_filter_of_dropped_id _ _
    (by intro acc b hb
        cases b <;> simp_all [ContentBlock.isThinking, a_to_o_block_step]) bs acc

/-- The content fold of `anthropic_to_openai_response` ignores `Thinking`
blocks. -/
theorem a_to_o_response_fold_drops_thinking (strf : Json → String)
    (bs : List ResponseContent) (acc : Option String × List ToolCall) :
    (bs.filter fun b => !b.isThinking).foldl (a_to_o_response_step strf) acc
      = bs.foldl (a_to_o_response_step strf) acc :=
  foldl_filter_of_dropped_id _ _
    (by intro acc b hb
        cases b <;> simp_all [ResponseContent.isThinking, a_to_o_response_step]) bs acc

/-- Shifting the output accumulator out of the A→O event fold. -/
theorem ao_process_events_shift (now : Nat) :
    ∀ (es : List AParsedEvent) (st : AOStateRec) (out : List OFrame),
    es.foldl (fun acc e =>
      let step := ao_process_event now acc.1 e
      (step.1, acc.2 ++ step.2)) (st, out)
      = ((ao_process_events now st es).1, out ++ (ao_process_events now st es).2) := by
  intro es
  induction es with
  | nil => intro st out; simp [ao_process_events]
  | cons e es ih =>
    intro st out
    simp only [ao_process_events, List.foldl_cons]
    dsimp only [List.nil_append]
    rw [ih, ih]
    simp

/-- The A→O event fold, one event at a time. -/
theorem ao_process_events_cons (now : Nat) (e : AParsedEvent) (es : List AParsedEvent)
    (st : AOStateRec) :
    ao_process_events now st (e :: es)
      = ((ao_process_events now (ao_process_event now st e).1 es).1,
         (ao_process_event now st e).2
           ++ (ao_process_events now (ao_process_event now st e).1 es).2) := by
  unfold ao_process_events
  rw [List.foldl_cons]
  dsimp only [List.nil_append]
  rw [ao_process_events_shift]
  rfl

/-- The A→O event fold over an appended list. -/
theorem ao_process_events_append (now : Nat) (es1 es2 : List AParsedEvent)
    (st : AOStateRec) :
    ao_process_events now st (es1 ++ es2)
      = ((ao_process_events now (ao_process_events now st es1).1 es2).1,
         (ao_process_events now st es1).2
           ++ (ao_process_events now (ao_process_events now st es1).1 es2).2) := by
  induction es1 generalizing st with
  | nil => simp [ao_process_events]
  | cons e es1 ih =>
    rw [List.cons_append, ao_process_events_cons, ao_process_events_cons, ih]
    simp

/-- The content chunks emitted by one A→O step are exactly the texts of the
event's text delta. -/
theorem ao_event_content (now : Nat) (st : AOStateRec) (e : AParsedEvent) :
    ((ao_process_event now st e).2).filterMap OFrame.contentText
      = (AParsedEvent.textDeltaText e).toList := by
  cases e with
  | messageStart i m => rfl
  | contentBlockStart i b => cases b <;> rfl
  | contentBlockDelta i d => cases d <;> rfl
  | contentBlockStop i => rfl
  | messageDelta sr => cases sr <;> rfl
  | messageStop => rfl
  | other => rfl

/-- No A→O step other than `message_stop` emits a `[DONE]` frame. -/
theorem ao_event_no_done (now : Nat) (st : AOStateRec) (e : AParsedEvent)
    (h : e ≠ AParsedEvent.messageStop) :
    OFrame.doneFrame ∉ (ao_process_event now st e).2 := by
  cases e with
  | messageStart i m => simp [ao_process_event]
  | contentBlockStart i b => cases b <;> simp [ao_process_event]
  | contentBlockDelta i d => cases d <;> simp [ao_process_event]
  | contentBlockStop i => simp [ao_process_event]
  | messageDelta sr => cases sr <;> simp [ao_process_event]
  | messageStop => exact absurd rfl h
  | other => simp [ao_process_event]

/-- A `[DONE]`-free input prefix yields a `[DONE]`-free output. -/
theorem ao_events_no_done (now : Nat) :
    ∀ (es : List AParsedEvent) (st : AOStateRec),
    AParsedEvent.messageStop ∉ es →
    OFrame.doneFrame ∉ (ao_process_events now st es).2 := by
  intro es
  induction es with
  | nil => intro st _; simp [ao_process_events]
  | cons e es ih =>
    intro st h
    rw [ao_process_events_cons]
    simp only [List.mem_append, not_or]
    exact ⟨ao_event_no_done now st e (fun he => h (he ▸ List.mem_cons_self e es)),
      ih _ (fun he => h (List.mem_cons_of_mem e he))⟩

/-- Shifting the output accumulator out of the O→A line fold. -/
theorem oa_process_lines_shift :
    ∀ (ls : List OLine) (st : OAState) (out : List AOut),
    ls.foldl (fun acc l =>
      let step := oa_process_line acc.1 l
      (step.1, acc.2 ++ step.2)) (st, out)
      = ((oa_process_lines st ls).1, out ++ (oa_process_lines st ls).2) := by
  intro ls
  induction ls with
  | nil => intro st out; simp [oa_process_lines]
  | cons l ls ih =>
    intro st out
    simp only [oa_process_lines, List.foldl_cons]
    dsimp only [List.nil_append]
    rw [ih, ih]
    simp

/-- The O→A line fold, one line at a time. -/
theorem oa_process_lines_cons (l : OLine) (ls : List OLine) (st : OAState) :
    oa_process_lines st (l :: ls)
      = ((oa_process_lines (oa_process_line st l).1 ls).1,
         (oa_process_line st l).2
           ++ (oa_process_lines (oa_process_line st l).1 ls).2) := by
  unfold oa_process_lines
  rw [List.foldl_cons]
  dsimp only [List.nil_append]
  rw [oa_process_lines_shift]
  rfl

/-- The O→A line fold over an appended list. -/
theorem oa_process_lines_append (ls1 ls2 : List OLine) (st : OAState) :
    oa_process_lines st (ls1 ++ ls2)
      = ((oa_process_lines (oa_process_lines st ls1).1 ls2).1,
         (oa_process_lines st ls1).2
           ++ (oa_process_lines (oa_process_lines st ls1).1 ls2).2) := by
  induction ls1 generalizing st with
  | nil => simp [oa_process_lines]
  | cons l ls1 ih =>
    rw [List.cons_append, oa_process_lines_cons, oa_process_lines_cons, ih]
    simp

/-- Shifting the output accumulator out of the tool-call fold. -/
theorem oa_tool_fold_shift :
    ∀ (l : List OToolCallDelta) (st : OAState) (out : List AOut),
    l.foldl (fun acc tc =>
      let step := oa_emit_tool_call acc.1 tc
      (step.1, acc.2 ++ step.2)) (st, out)
      = ((oa_emit_tool_calls st (some l)).1, out ++ (oa_emit_tool_calls st (some l)).2) := by
  intro l
  induction l with
  | nil => intro st out; simp [oa_emit_tool_calls]
  | cons tc l ih =>
    intro st out
    simp only [oa_emit_tool_calls, List.foldl_cons]
    dsimp only [List.nil_append]
    rw [ih, ih]
    simp

/-- The `message_start` phase emits no error event. -/
theorem oa_emit_message_start_no_error (st : OAState) (m : String) :
    AOut.errorEvent m ∉ (oa_emit_message_start st).2 := by
  unfold oa_emit_message_start
  split <;> simp

/-- The reasoning phase emits no error event. -/
theorem oa_emit_reasoning_no_error (st : OAState) (r : Option String) (m : String) :
    AOut.errorEvent m ∉ (oa_emit_reasoning st r).2 := by
  unfold oa_emit_reasoning
  cases r with
  | none => simp
  | some s =>
    dsimp only
    split <;> simp

/-- The content phase emits no error event. -/
theorem oa_emit_content_no_error (st : OAState) (content : Option String) (m : String) :
    AOut.errorEvent m ∉ (oa_emit_content st content).2 := by
  unfold oa_emit_content
  cases content with
  | none => simp
  | some c =>
    dsimp only
    split_ifs <;> simp

/-- One tool-call entry emits no error event. -/
theorem oa_emit_tool_call_no_error (st : OAState) (tc : OToolCallDelta) (m : String) :
    AOut.errorEvent m ∉ (oa_emit_tool_call st tc).2 := by
  obtain ⟨tid, tf⟩ := tc
  unfold oa_emit_tool_call
  cases tid <;> cases tf <;> dsimp only
  · simp
  · rename_i f
    obtain ⟨fname, fargs⟩ := f
    cases fname <;> cases fargs <;> simp
  · split_ifs <;> simp
  · rename_i f
    obtain ⟨fname, fargs⟩ := f
    cases fname <;> cases fargs <;> split_ifs <;> simp

/-- The tool-call phase emits no error event. -/
theorem oa_emit_tool_calls_no_error (tcs : Option (List OToolCallDelta)) (st : OAState)
    (m : String) :
    AOut.errorEvent m ∉ (oa_emit_tool_calls st tcs).2 := by
  cases tcs with
  | none => simp [oa_emit_tool_calls]
  | some l =>
    induction l generalizing st with
    | nil => simp [oa_emit_tool_calls]
    | cons tc l ih =>
      simp only [oa_emit_tool_calls, List.foldl_cons]
      dsimp only [List.nil_append]
      rw [oa_tool_fold_shift]
      simp only [List.mem_append, not_or]
      exact ⟨oa_emit_tool_call_no_error st tc m, ih _⟩

/-- The finish phase emits no error event. -/
theorem oa_emit_finish_no_error (st : OAState) (fr : Option String)
    (usage : Option OUsage) (m : String) :
    AOut.errorEvent m ∉ (oa_emit_finish st fr usage).2 := by
  unfold oa_emit_finish
  cases fr with
  | none => simp
  | some f =>
    dsimp only
    split_ifs <;> simp

/-- Processing one choice emits no error event. -/
theorem oa_choice_no_error (st : OAState) (ch : OStreamChoice) (usage : Option OUsage)
    (m : String) :
    AOut.errorEvent m ∉ (oa_process_choice st ch usage).2 := by
  unfold oa_process_choice
  dsimp only
  simp only [List.append_assoc, List.mem_append, not_or]
  exact ⟨oa_emit_message_start_no_error _ m, oa_emit_reasoning_no_error _ _ m,
    oa_emit_content_no_error _ _ m, oa_emit_tool_calls_no_error _ _ m,
    oa_emit_finish_no_error _ _ _ m⟩

/-- Processing one O chunk emits no error event. -/
theorem oa_chunk_no_error (st : OAState) (c : OStreamChunk) (m : String) :
    AOut.errorEvent m ∉ (oa_process_chunk st c).2 := by
  unfold oa_process_chunk
  dsimp only
  split_ifs <;>
    (cases c.choices.head? with
     | none => simp
     | some ch => exact oa_choice_no_error _ ch c.usage m)

/-- Processing one line emits no error event. -/
theorem oa_line_no_error (st : OAState) (l : OLine) (m : String) :
    AOut.errorEvent m ∉ (oa_process_line st l).2 := by
  cases l with
  | done => simp [oa_process_line]
  | malformed => simp [oa_process_line]
  | chunk c => exact oa_chunk_no_error st c m

/-- Normal line processing emits no error event. -/
theorem oa_lines_no_error (ls : List OLine) (st : OAState) (m : String) :
    AOut.errorEvent m ∉ (oa_process_lines st ls).2 := by
  induction ls generalizing st with
  | nil => simp [oa_process_lines]
  | cons l ls ih =>
    rw [oa_process_lines_cons]
    simp only [List.mem_append, not_or]
    exact ⟨oa_line_no_error st l m, ih _⟩

/-- The text-content correspondence of the A→O translator, from any state. -/
theorem ao_content_corr_aux (now : Nat) :
    ∀ (es : List AParsedEvent) (st : AOStateRec),
    ((ao_process_events now st es).2).filterMap OFrame.contentText
      = es.filterMap AParsedEvent.textDeltaText := by
  intro es
  induction es with
  | nil => intro st; rfl
  | cons e es ih =>
    intro st
    rw [ao_process_events_cons]
    dsimp only
    rw [List.filterMap_append, ih, ao_event_content, List.filterMap_cons]
    cases he : AParsedEvent.textDeltaText e <;> simp [he]

/-! ## Claim theorems -/

/-- C4: the stop-reason mappings are total in both directions: the O→A map
sends stop ↦ end_turn, tool_calls ↦ tool_use, length ↦ max_tokens and every
other string to end_turn; the A→O map sends end_turn ↦ stop,
tool_use ↦ tool_calls, max_tokens ↦ length and every other string to stop;
the two composites are the identity on the three named values each way. -/
theorem c4_stop_reason_mapping_theorem :
    (map_stop_reason (some "stop") = some "end_turn"
      ∧ map_stop_reason (some "tool_calls") = some "tool_use"
      ∧ map_stop_reason (some "length") = some "max_tokens")
    ∧ (∀ s : String, s ≠ "stop" → s ≠ "tool_calls" → s ≠ "length" →
        map_stop_reason (some s) = some "end_turn")
    ∧ (map_finish_reason_ao "end_turn" = "stop"
      ∧ map_finish_reason_ao "tool_use" = "tool_calls"
      ∧ map_finish_reason_ao "max_tokens" = "length")
    ∧ (∀ s : String, s ≠ "end_turn" → s ≠ "tool_use" → s ≠ "max_tokens" →
        map_finish_reason_ao s = "stop")
    ∧ (map_stop_reason (some (map_finish_reason_ao "end_turn")) = some "end_turn"
      ∧ map_stop_reason (some (map_finish_reason_ao "tool_use")) = some "tool_use"
      ∧ map_stop_reason (some (map_finish_reason_ao "max_tokens")) = some "max_tokens")
    ∧ ((map_stop_reason (some "stop")).map map_finish_reason_ao = some "stop"
      ∧ (map_stop_reason (some "tool_calls")).map map_finish_reason_ao = some "tool_calls"
      ∧ (map_stop_reason (some "length")).map map_finish_reason_ao = some "length") :=
  ⟨⟨rfl, rfl, rfl⟩, map_stop_reason_default, ⟨rfl, rfl, rfl⟩,
    map_finish_reason_ao_default, ⟨rfl, rfl, rfl⟩, ⟨rfl, rfl, rfl⟩⟩

/-- Witness for C4: the default arms of both mappings at the concrete
string "weird". -/
theorem c4_stop_reason_mapping_witness :
    map_stop_reason (some "weird") = some "end_turn"
    ∧ map_finish_reason_ao "weird" = "stop" :=
  ⟨c4_stop_reason_mapping_theorem.2.1 "weird" (by decide) (by decide) (by decide),
   c4_stop_reason_mapping_theorem.2.2.2.1 "weird" (by decide) (by decide) (by decide)⟩

/-- C6: every decision returned by `RoutingDecision::decide` satisfies
`needs_transform = true ↔ transform_direction ≠ none`, for every request
format, model and configuration. -/
theorem c6_decision_invariant_theorem (fmt : RequestFormat) (model : String)
    (cfg : Config) (d : RoutingDecision)
    (h : RoutingDecision.decide fmt model cfg = Except.ok d) :
    d.needs_transform = true ↔ d.transform_direction ≠ none := by
  unfold RoutingDecision.decide decide_transform_mode decide_passthrough_mode
    decide_auto_mode at h
  dsimp only at h
  repeat' split at h
  all_goals first
    | exact Except.noConfusion h
    | (injection h with h; subst h; simp)

/-- Witness for C6: the invariant at the Transform-mode decision for an
A-format request. -/
theorem c6_decision_invariant_witness :
    RoutingDecision.decide RequestFormat.anthropic "claude-3" cfg_transform =
      Except.ok ⟨Backend.upstream, true, some TransformDirection.anthropicToOpenAI⟩
    ∧ ((true : Bool) = true ↔
        (some TransformDirection.anthropicToOpenAI : Option TransformDirection) ≠ none) :=
  ⟨rfl, c6_decision_invariant_theorem RequestFormat.anthropic "claude-3"
    cfg_transform ⟨Backend.upstream, true, some TransformDirection.anthropicToOpenAI⟩ rfl⟩

/-- C10: the catch-all arm of `decide_auto_mode` is unreachable:
`infer_backend_from_model` never returns the upstream backend, so in Auto
and Gateway modes `decide_auto_mode` never returns the Internal
"Invalid routing combination" error and always returns either a decision
or a configuration error. -/
theorem c10_catch_all_unreachable_theorem :
    (∀ model : String, infer_backend_from_model model ≠ Backend.upstream)
    ∧ (∀ (fmt : RequestFormat) (model : String) (cfg : Config),
        decide_auto_mode fmt model cfg ≠
          Except.error (ProxyError.internalErr "Invalid routing combination"))
    ∧ (∀ (fmt : RequestFormat) (model : String) (cfg : Config),
        (∃ d, decide_auto_mode fmt model cfg = Except.ok d)
        ∨ (∃ m, decide_auto_mode fmt model cfg = Except.error (ProxyError.configErr m))) := by
  refine ⟨infer_backend_ne_upstream, ?_, ?_⟩
  · intro fmt model cfg
    unfold decide_auto_mode
    dsimp only
    cases hb : infer_backend_from_model model with
    | upstream => exact absurd hb (infer_backend_ne_upstream model)
    | anthropic =>
      cases fmt
      all_goals dsimp only
      all_goals repeat' split
      all_goals simp
    | openai =>
      cases fmt
      all_goals dsimp only
      all_goals repeat' split
      all_goals simp
  · intro fmt model cfg
    unfold decide_auto_mode
    dsimp only
    cases hb : infer_backend_from_model model with
    | upstream => exact absurd hb (infer_backend_ne_upstream model)
    | anthropic =>
      cases fmt
      all_goals dsimp only
      all_goals repeat' split
      all_goals first
        | exact Or.inr ⟨_, rfl⟩
        | exact Or.inl ⟨_, rfl⟩
    | openai =>
      cases fmt
      all_goals dsimp only
      all_goals repeat' split
      all_goals first
        | exact Or.inr ⟨_, rfl⟩
        | exact Or.inl ⟨_, rfl⟩

/-- C5: model-family inference in Auto/Gateway modes is case-insensitive
with the A-family patterns checked first; models matching no pattern
default to the O-family; and in the (A-request, O-family) cell the decision
prefers the O-Native backend when its URL and key are both configured,
falls back to Generic-Upstream when its URL is configured, and otherwise
returns a configuration error. -/
theorem c5_model_routing_theorem :
    (∀ model : String,
      (strStartsWith (lowerStr model) "claude"
        || strContains (lowerStr model) "anthropic/"
        || strContains (lowerStr model) "anthropic-") = true →
      infer_backend_from_model model = Backend.anthropic)
    ∧ (∀ model : String,
      (strStartsWith (lowerStr model) "claude"
        || strContains (lowerStr model) "anthropic/"
        || strContains (lowerStr model) "anthropic-") = false →
      (strStartsWith (lowerStr model) "gpt"
        || strStartsWith (lowerStr model) "o1"
        || strStartsWith (lowerStr model) "o3"
        || strContains (lowerStr model) "openai/"
        || strStartsWith (lowerStr model) "text-"
        || strStartsWith (lowerStr model) "davinci"
        || strStartsWith (lowerStr model) "curie"
        || strStartsWith (lowerStr model) "babbage"
        || strStartsWith (lowerStr model) "ada") = true →
      infer_backend_from_model model = Backend.openai)
    ∧ (∀ model : String,
      (strStartsWith (lowerStr model) "claude"
        || strContains (lowerStr model) "anthropic/"
        || strContains (lowerStr model) "anthropic-") = false →
      (strStartsWith (lowerStr model) "gpt"
        || strStartsWith (lowerStr model) "o1"
        || strStartsWith (lowerStr model) "o3"
        || strContains (lowerStr model) "openai/"
        || strStartsWith (lowerStr model) "text-"
        || strStartsWith (lowerStr model) "davinci"
        || strStartsWith (lowerStr model) "curie"
        || strStartsWith (lowerStr model) "babbage"
        || strStartsWith (lowerStr model) "ada") = false →
      infer_backend_from_model model = Backend.openai)
    ∧ (∀ (model : String) (cfg : Config),
      infer_backend_from_model model = Backend.openai →
      decide_auto_mode RequestFormat.anthropic model cfg =
        (if cfg.openai_base_url.isSome && cfg.openai_api_key.isSome then
          Except.ok ⟨Backend.openai, true, some TransformDirection.anthropicToOpenAI⟩
        else if cfg.base_url.isSome then
          Except.ok ⟨Backend.upstream, true, some TransformDirection.anthropicToOpenAI⟩
        else
          Except.error (ProxyError.configErr
            "No OpenAI-compatible backend configured. Set OPENAI_BASE_URL + OPENAI_API_KEY or UPSTREAM_BASE_URL."))) := by
  refine ⟨?_, ?_, ?_, ?_⟩
  · intro model h
    unfold infer_backend_from_model
    dsimp only
    rw [if_pos h]
  · intro model h1 h2
    unfold infer_backend_from_model
    dsimp only
    rw [if_neg (by simp [h1]), if_pos h2]
  · intro model h1 h2
    unfold infer_backend_from_model
    dsimp only
    rw [if_neg (by simp [h1]), if_neg (by simp [h2])]
  · intro model cfg h
    unfold decide_auto_mode
    dsimp only
    rw [h]

/-- Witness for C5: the four cases at the concrete models "Claude-3",
"GPT-4" and "my-custom-model", and the (A, O) cell under the Auto
configuration with both native backends set. -/
theorem c5_model_routing_witness :
    infer_backend_from_model "Claude-3" = Backend.anthropic
    ∧ infer_backend_from_model "GPT-4" = Backend.openai
    ∧ infer_backend_from_model "my-custom-model" = Backend.openai
    ∧ decide_auto_mode RequestFormat.anthropic "GPT-4" cfg_auto =
        (if cfg_auto.openai_base_url.isSome && cfg_auto.openai_api_key.isSome then
          Except.ok ⟨Backend.openai, true, some TransformDirection.anthropicToOpenAI⟩
        else if cfg_auto.base_url.isSome then
          Except.ok ⟨Backend.upstream, true, some TransformDirection.anthropicToOpenAI⟩
        else
          Except.error (ProxyError.configErr
            "No OpenAI-compatible backend configured. Set OPENAI_BASE_URL + OPENAI_API_KEY or UPSTREAM_BASE_URL.")) :=
  ⟨c5_model_routing_theorem.1 "Claude-3" (by decide),
   c5_model_routing_theorem.2.1 "GPT-4" (by decide) (by decide),
   c5_model_routing_theorem.2.2.1 "my-custom-model" (by decide) (by decide),
   c5_model_routing_theorem.2.2.2 "GPT-4" cfg_auto
     (c5_model_routing_theorem.2.1 "GPT-4" (by decide) (by decide))⟩

/-- C1 counterexample: for the O request with the two system messages "A"
then "B", the resulting A `system` field is the single string "B" (the last
system message), not the newline concatenation "A\nB" the claim states. -/
theorem c1_system_concat_counterexample :
    (openai_to_anthropic_request (fun _ => none) req_two_systems cfg_transform).system
      = some (SystemPrompt.single "B")
    ∧ "B" ≠ "A\nB" :=
  ⟨rfl, by decide⟩

/-- C1 amended: for every O request, the A `system` field is the text of
the last system-role message that carries content (each system message
overwrites the previous one; within one message, text parts are joined by
newline), and is absent when there is no such message. -/
theorem c1_system_last_wins_theorem (p : String → Option Json)
    (req : OpenAIRequest) (cfg : Config) :
    (openai_to_anthropic_request p req cfg).system
      = (last_system_text req.messages).map SystemPrompt.single := by
  unfold openai_to_anthropic_request
  dsimp only
  rw [foldl_system_component]
  cases last_system_text req.messages <;> rfl

/-- C2 counterexample: for the A response whose content is the two `Text`
blocks "A" then "B", `choices[0].message.content` is "B" (the last text
block), not the concatenation "AB" the claim states. -/
theorem c2_text_concat_counterexample :
    first_choice_content (anthropic_to_openai_response (fun _ => "") 0 resp_two_texts)
      = some "B"
    ∧ "B" ≠ "AB" :=
  ⟨rfl, by decide⟩

/-- C2 amended: for every A response, `choices[0].message.content` is the
text of the last `Text` block of the content list (each `Text` block
overwrites the previous one), and is null when there is no `Text` block. -/
theorem c2_last_text_block_theorem (strf : Json → String) (now : Nat)
    (resp : AnthropicResponse) :
    first_choice_content (anthropic_to_openai_response strf now resp)
      = last_text_block resp.content := by
  unfold anthropic_to_openai_response first_choice_content
  dsimp only
  rw [foldl_response_content]
  cases last_text_block resp.content <;> rfl

/-- C7: thinking content never appears in an O-format output: the A→O
request transformer and the A→O response transformer produce the same
output whether or not `Thinking` blocks are present, and the A→O stream
translator emits no chunk for a thinking delta (nor for a thinking block
start) and leaves its state unchanged. -/
theorem c7_thinking_never_in_o_theorem :
    (∀ (strf : Json → String) (role : String) (bs : List ContentBlock),
      convert_message strf ⟨role, AMessageContent.blocks (bs.filter fun b => !b.isThinking)⟩
        = convert_message strf ⟨role, AMessageContent.blocks bs⟩)
    ∧ (∀ (strf : Json → String) (now : Nat) (resp : AnthropicResponse),
      anthropic_to_openai_response strf now
        { resp with content := resp.content.filter fun b => !b.isThinking }
        = anthropic_to_openai_response strf now resp)
    ∧ (∀ (now : Nat) (st : AOStateRec) (i : Nat) (s : String),
      ao_process_event now st (AParsedEvent.contentBlockDelta i (ADeltaIn.thinkingDelta s))
        = (st, [])
      ∧ ao_process_event now st (AParsedEvent.contentBlockStart i ABlockStartIn.thinking)
        = (st, [])) := by
  refine ⟨?_, ?_, ?_⟩
  · intro strf role bs
    unfold convert_message
    dsimp only
    rw [a_to_o_fold_drops_thinking]
  · intro strf now resp
    unfold anthropic_to_openai_response
    dsimp only
    rw [a_to_o_response_fold_drops_thinking]
  · intro now st i s
    exact ⟨rfl, rfl⟩

/-- C8: in the A→O stream translator, the emitted chunks carrying a
`delta.content` are, in order, exactly the texts of the incoming
`content_block_delta{text_delta}` events (each such event yields exactly
one chunk with that text); and when the source stream ends cleanly after
its `message_stop` event, exactly one `data: [DONE]` terminator frame is
emitted, as the last frame. -/
theorem c8_text_delta_and_done_theorem :
    (∀ (now : Nat) (es : List AParsedEvent),
      (ao_translate now es).filterMap OFrame.contentText
        = es.filterMap AParsedEvent.textDeltaText)
    ∧ (∀ (now : Nat) (es : List AParsedEvent), AParsedEvent.messageStop ∉ es →
      ao_translate now (es ++ [AParsedEvent.messageStop])
        = ao_translate now es ++ [OFrame.doneFrame]
      ∧ (ao_translate now (es ++ [AParsedEvent.messageStop])).count OFrame.doneFrame = 1
      ∧ (ao_translate now (es ++ [AParsedEvent.messageStop])).getLast?
          = some OFrame.doneFrame) := by
  constructor
  · intro now es
    exact ao_content_corr_aux now es {}
  · intro now es h
    have happ : ao_translate now (es ++ [AParsedEvent.messageStop])
        = ao_translate now es ++ [OFrame.doneFrame] := by
      unfold ao_translate
      rw [ao_process_events_append]
      rw [ao_process_events_cons]
      rfl
    refine ⟨happ, ?_, ?_⟩
    · rw [happ, List.count_append]
      have hz : (ao_translate now es).count OFrame.doneFrame = 0 :=
        List.count_eq_zero.mpr (ao_events_no_done now es {} h)
      simp [hz, List.count_cons]
    · rw [happ]
      exact List.getLast?_concat _

/-- Witness for C8: the literal recorded stream of §8 — `message_start`,
one text block with the single delta "Hi", `message_delta`, `message_stop` —
yields exactly the chunk with content "Hi", and one final `[DONE]`. -/
theorem c8_text_delta_and_done_witness :
    (ao_translate 7 [AParsedEvent.messageStart "c1" "gpt-4",
        AParsedEvent.contentBlockStart 0 ABlockStartIn.text,
        AParsedEvent.contentBlockDelta 0 (ADeltaIn.textDelta "Hi"),
        AParsedEvent.contentBlockStop 0,
        AParsedEvent.messageDelta (some "end_turn")]).filterMap OFrame.contentText
      = ["Hi"]
    ∧ ao_translate 7 ([AParsedEvent.messageStart "c1" "gpt-4",
        AParsedEvent.contentBlockStart 0 ABlockStartIn.text,
        AParsedEvent.contentBlockDelta 0 (ADeltaIn.textDelta "Hi"),
        AParsedEvent.contentBlockStop 0,
        AParsedEvent.messageDelta (some "end_turn")] ++ [AParsedEvent.messageStop])
      = ao_translate 7 [AParsedEvent.messageStart "c1" "gpt-4",
          AParsedEvent.contentBlockStart 0 ABlockStartIn.text,
          AParsedEvent.contentBlockDelta 0 (ADeltaIn.textDelta "Hi"),
          AParsedEvent.contentBlockStop 0,
          AParsedEvent.messageDelta (some "end_turn")] ++ [OFrame.doneFrame] := by
  constructor
  · exact (c8_text_delta_and_done_theorem.1 7 _).trans (by decide)
  · exact (c8_text_delta_and_done_theorem.2 7 _ (by decide)).1

/-- C9: on a transport error, the O→A translator emits exactly one
synthetic `error` frame (`{type:"stream_error", message:<detail>}`) after
the output of the error-free prefix and then terminates — nothing of the
remaining items is emitted, and the normal prefix output itself contains
no error frame; the A→O translator terminates on a transport error without
emitting anything beyond the prefix output (its frame type has no error
shape). -/
theorem c9_transport_error_theorem :
    (∀ (st : OAState) (pre : List (List OLine)) (m : String) (post : List OStreamItem),
      oa_run_stream st (pre.map OStreamItem.bytes ++ OStreamItem.transportError m :: post)
        = oa_run_stream st (pre.map OStreamItem.bytes)
          ++ [AOut.errorEvent ("Stream error: " ++ m)])
    ∧ (∀ (st : OAState) (pre : List (List OLine)) (m : String),
      AOut.errorEvent m ∉ oa_run_stream st (pre.map OStreamItem.bytes))
    ∧ (∀ (now : Nat) (st : AOStateRec) (pre : List (List AParsedEvent)) (m : String)
        (post : List AStreamItem),
      ao_run_stream now st (pre.map AStreamItem.events ++ AStreamItem.transportError m :: post)
        = ao_run_stream now st (pre.map AStreamItem.events)) := by
  refine ⟨?_, ?_, ?_⟩
  · intro st pre m post
    induction pre generalizing st with
    | nil => rfl
    | cons ls pre ih =>
      simp only [List.map_cons, List.cons_append, oa_run_stream, List.append_eq]
      rw [ih]
      simp
  · intro st pre m
    induction pre generalizing st with
    | nil => simp [oa_run_stream]
    | cons ls pre ih =>
      simp only [List.map_cons, oa_run_stream]
      simp only [List.mem_append, not_or]
      exact ⟨oa_lines_no_error ls st m, ih _⟩
  · intro now st pre m post
    induction pre generalizing st with
    | nil => rfl
    | cons es pre ih =>
      simp only [List.map_cons, List.cons_append, ao_run_stream, List.append_eq]
      rw [ih]

/-! ## Lifecycle lemmas for the O→A translator -/

/-- Events other than block events pass through the lifecycle checker. -/
theorem chkStep_pass (s : Nat × Option Nat) (e : AOut)
    (he : e.isBlockEvent = false) : chkStep (some s) e = some s := by
  obtain ⟨n, o⟩ := s
  cases o <;> cases e <;> simp_all [AOut.isBlockEvent, chkStep]

/-- The `message_start` phase preserves the lifecycle-checker state. -/
theorem chk_emit_message_start (st : OAState) :
    List.foldl chkStep (some (chkTarget st)) (oa_emit_message_start st).2
      = some (chkTarget (oa_emit_message_start st).1) := by
  unfold oa_emit_message_start
  split
  · rfl
  · rw [List.foldl_cons, List.foldl_nil,
      chkStep_pass (chkTarget st)
        (AOut.messageStart (st.message_id.getD "") (st.current_model.getD "")) rfl]
    rfl

/-- The reasoning phase preserves the lifecycle-checker state. -/
theorem chk_emit_reasoning (st : OAState) (r : Option String) :
    List.foldl chkStep (some (chkTarget st)) (oa_emit_reasoning st r).2
      = some (chkTarget (oa_emit_reasoning st r).1) := by
  unfold oa_emit_reasoning
  cases r with
  | none => rfl
  | some s =>
    dsimp only
    cases hc : st.current_block_type with
    | none => simp [chkTarget, hc, chkStep]
    | some b => simp [chkTarget, hc, chkStep]

/-- The content phase preserves the lifecycle-checker state. -/
theorem chk_emit_content (st : OAState) (content : Option String) :
    List.foldl chkStep (some (chkTarget st)) (oa_emit_content st content).2
      = some (chkTarget (oa_emit_content st content).1) := by
  unfold oa_emit_content
  cases content with
  | none => rfl
  | some c =>
    dsimp only
    by_cases hce : c = ""
    · simp [hce]
    · cases hc : st.current_block_type with
      | none => simp [hc, hce, chkStep, chkTarget]
      | some b =>
        by_cases hb : b = "text"
        · simp [hc, hb, hce, chkStep, chkTarget]
        · simp [hc, hb, hce, chkStep, chkTarget]

/-- Processing a simple choice (no tool calls, no finish reason) preserves
the lifecycle-checker state. -/
theorem chk_simple_choice (st0 st : OAState) (hs : chkTarget st0 = chkTarget st)
    (ch : OStreamChoice) (usage : Option OUsage)
    (htc : ch.delta.tool_calls = none) (hfr : ch.finish_reason = none) :
    List.foldl chkStep (some (chkTarget st0)) (oa_process_choice st ch usage).2
      = some (chkTarget (oa_process_choice st ch usage).1) := by
  unfold oa_process_choice
  dsimp only
  rw [hs, htc, hfr]
  simp only [oa_emit_tool_calls, oa_emit_finish, List.append_nil]
  rw [List.foldl_append, List.foldl_append,
    chk_emit_message_start, chk_emit_reasoning, chk_emit_content]

/-- Processing a simple chunk (no tool calls, no finish reason) preserves
the lifecycle-checker state. -/
theorem chk_simple_chunk (st : OAState) (c : OStreamChunk)
    (h : simpleChunk c = true) :
    List.foldl chkStep (some (chkTarget st)) (oa_process_chunk st c).2
      = some (chkTarget (oa_process_chunk st c).1) := by
  unfold oa_process_chunk
  dsimp only
  split_ifs <;>
  · cases hh : c.choices.head? with
    | none => rfl
    | some ch =>
      dsimp only
      have hsimple : simpleChoice ch = true := by
        unfold simpleChunk at h
        rw [hh] at h
        exact h
      have htc : ch.delta.tool_calls = none := by
        have h2 := (Bool.and_eq_true _ _).mp hsimple
        exact Option.isNone_iff_eq_none.mp h2.1
      have hfr : ch.finish_reason = none := by
        have h2 := (Bool.and_eq_true _ _).mp hsimple
        exact Option.isNone_iff_eq_none.mp h2.2
      refine chk_simple_choice st _ ?_ ch c.usage htc hfr
      rfl

/-- Processing a list of simple chunks preserves the lifecycle-checker
state. -/
theorem chk_simple_lines (cs : List OStreamChunk)
    (h : ∀ c ∈ cs, simpleChunk c = true) :
    ∀ st : OAState,
    List.foldl chkStep (some (chkTarget st)) (oa_process_lines st (cs.map OLine.chunk)).2
      = some (chkTarget (oa_process_lines st (cs.map OLine.chunk)).1) := by
  induction cs with
  | nil => intro st; rfl
  | cons c cs ih =>
    intro st
    rw [List.map_cons, oa_process_lines_cons]
    dsimp only
    rw [List.foldl_append,
      show oa_process_line st (OLine.chunk c) = oa_process_chunk st c from rfl,
      chk_simple_chunk st c (h c (List.mem_cons_self c cs))]
    exact ih (fun x hx => h x (List.mem_cons_of_mem _ hx)) _

/-- The finish phase, from a matching checker state, closes the checker. -/
theorem chk_emit_finish (st : OAState) (fr : String) (usage : Option OUsage) :
    ∃ n, List.foldl chkStep (some (chkTarget st)) (oa_emit_finish st (some fr) usage).2
      = some (n, none) := by
  unfold oa_emit_finish
  dsimp only
  cases hcb : st.current_block_type with
  | none => exact ⟨st.content_index, by simp [chkTarget, hcb, chkStep, chkStep_pass]⟩
  | some b => exact ⟨st.content_index + 1, by simp [chkTarget, hcb, chkStep, chkStep_pass]⟩

/-- Processing a finishing choice closes the lifecycle checker. -/
theorem chk_finish_choice (st0 st : OAState) (hs : chkTarget st0 = chkTarget st)
    (ch : OStreamChoice) (usage : Option OUsage)
    (htc : ch.delta.tool_calls = none) (fr : String)
    (hfr : ch.finish_reason = some fr) :
    ∃ n, List.foldl chkStep (some (chkTarget st0)) (oa_process_choice st ch usage).2
      = some (n, none) := by
  unfold oa_process_choice
  dsimp only
  rw [hs, htc, hfr]
  simp only [oa_emit_tool_calls, List.append_nil]
  rw [List.foldl_append, List.foldl_append, List.foldl_append,
    chk_emit_message_start, chk_emit_reasoning, chk_emit_content]
  exact chk_emit_finish _ fr usage

/-- Processing a finishing chunk closes the lifecycle checker. -/
theorem chk_finish_chunk (st : OAState) (f : OStreamChunk)
    (h : finishChunk f = true) :
    ∃ n, List.foldl chkStep (some (chkTarget st)) (oa_process_chunk st f).2
      = some (n, none) := by
  unfold oa_process_chunk
  dsimp only
  split_ifs <;>
  · cases hh : f.choices.head? with
    | none =>
      exfalso
      unfold finishChunk at h
      rw [hh] at h
      exact Bool.false_ne_true h
    | some ch =>
      dsimp only
      have hfin : (ch.delta.tool_calls.isNone && ch.finish_reason.isSome) = true := by
        unfold finishChunk at h
        rw [hh] at h
        exact h
      have htc : ch.delta.tool_calls = none :=
        Option.isNone_iff_eq_none.mp ((Bool.and_eq_true _ _).mp hfin).1
      obtain ⟨fr, hfr⟩ := Option.isSome_iff_exists.mp ((Bool.and_eq_true _ _).mp hfin).2
      refine chk_finish_choice st _ ?_ ch f.usage htc fr hfr
      rfl

/-- Folding the empty line list is the identity. -/
theorem oa_process_lines_nil (st : OAState) : oa_process_lines st [] = (st, []) := rfl

/-- A stream whose first event is `message_start` has no block event before
its first `message_start`. -/
theorem wfStartFirst_of_head (out : List AOut) (i mo : String)
    (h : out.head? = some (AOut.messageStart i mo)) : wfStartFirst out = true := by
  cases out with
  | nil => cases h
  | cons a t =>
    injection h with h
    subst h
    simp [wfStartFirst, AOut.isMessageStart]

/-- When `message_start` has not been sent yet, processing a choice emits
`message_start` first. -/
theorem oa_choice_head (st : OAState) (ch : OStreamChoice) (usage : Option OUsage)
    (h : st.has_sent_message_start = false) :
    (oa_process_choice st ch usage).2.head?
      = some (AOut.messageStart (st.message_id.getD "") (st.current_model.getD "")) := by
  unfold oa_process_choice oa_emit_message_start
  dsimp only
  simp only [h, Bool.false_eq_true, if_false]
  simp [List.append_assoc]

/-- When `message_start` has not been sent yet, processing a chunk with at
least one choice emits `message_start` first. -/
theorem oa_chunk_head (st : OAState) (c : OStreamChunk) (ch : OStreamChoice)
    (hh : c.choices.head? = some ch) (h : st.has_sent_message_start = false) :
    ∃ i mo, (oa_process_chunk st c).2.head? = some (AOut.messageStart i mo) := by
  unfold oa_process_chunk
  dsimp only
  split_ifs <;>
  · rw [hh]
    dsimp only
    exact ⟨_, _, oa_choice_head _ ch c.usage h⟩

/-- Processing a chunk from a state that has not sent `message_start`
either emits nothing and leaves the flag unset, or emits `message_start`
first. -/
theorem oa_chunk_start_structure (st : OAState) (c : OStreamChunk)
    (h : st.has_sent_message_start = false) :
    ((oa_process_chunk st c).2 = []
      ∧ (oa_process_chunk st c).1.has_sent_message_start = false)
    ∨ (∃ i mo, (oa_process_chunk st c).2.head? = some (AOut.messageStart i mo)) := by
  cases hh : c.choices.head? with
  | none =>
    left
    constructor
    · unfold oa_process_chunk
      dsimp only
      split_ifs <;> rw [hh]
    · unfold oa_process_chunk
      dsimp only
      split_ifs <;> rw [hh] <;> exact h
  | some ch => exact Or.inr (oa_chunk_head st c ch hh h)

/-- Processing a list of simple chunks from a fresh state either emits
nothing, or emits `message_start` first. -/
theorem oa_lines_start_structure (cs : List OStreamChunk) :
    ∀ st : OAState, st.has_sent_message_start = false →
    ((oa_process_lines st (cs.map OLine.chunk)).2 = []
      ∧ (oa_process_lines st (cs.map OLine.chunk)).1.has_sent_message_start = false)
    ∨ (∃ i mo, (oa_process_lines st (cs.map OLine.chunk)).2.head?
        = some (AOut.messageStart i mo)) := by
  induction cs with
  | nil => intro st h; exact Or.inl ⟨rfl, h⟩
  | cons c cs ih =>
    intro st h
    rw [List.map_cons, oa_process_lines_cons]
    dsimp only
    rcases oa_chunk_start_structure st c h with ⟨h1, h2⟩ | ⟨i, mo, hhead⟩
    · rw [show oa_process_line st (OLine.chunk c) = oa_process_chunk st c from rfl, h1]
      simp only [List.nil_append]
      exact ih _ h2
    · right
      refine ⟨i, mo, ?_⟩
      rw [show oa_process_line st (OLine.chunk c) = oa_process_chunk st c from rfl]
      cases hout : (oa_process_chunk st c).2 with
      | nil => rw [hout] at hhead; cases hhead
      | cons a t =>
        rw [hout] at hhead
        injection hhead with hhead
        subst hhead
        rfl

/-- Witness for C10: the inference and the auto-mode decision at the
concrete model "my-custom-model" under the Transform-mode configuration. -/
theorem c10_catch_all_unreachable_witness :
    infer_backend_from_model "my-custom-model" ≠ Backend.upstream
    ∧ decide_auto_mode RequestFormat.openai "my-custom-model" cfg_transform ≠
        Except.error (ProxyError.internalErr "Invalid routing combination")
    ∧ ((∃ d, decide_auto_mode RequestFormat.openai "my-custom-model" cfg_transform
          = Except.ok d)
      ∨ (∃ m, decide_auto_mode RequestFormat.openai "my-custom-model" cfg_transform
          = Except.error (ProxyError.configErr m))) :=
  ⟨c10_catch_all_unreachable_theorem.1 "my-custom-model",
   c10_catch_all_unreachable_theorem.2.1 RequestFormat.openai "my-custom-model" cfg_transform,
   c10_catch_all_unreachable_theorem.2.2 RequestFormat.openai "my-custom-model" cfg_transform⟩

/-- Witness for C9: the empty error-free prefix followed by a transport
error, in both directions, and the absence of error frames on a concrete
normal stream. -/
theorem c9_transport_error_witness :
    oa_run_stream {} (([] : List (List OLine)).map OStreamItem.bytes
        ++ OStreamItem.transportError "boom" :: [])
      = oa_run_stream {} (([] : List (List OLine)).map OStreamItem.bytes)
        ++ [AOut.errorEvent ("Stream error: " ++ "boom")]
    ∧ AOut.errorEvent "x"
        ∉ oa_run_stream {} (([[OLine.done]] : List (List OLine)).map OStreamItem.bytes)
    ∧ ao_run_stream 0 {} (([] : List (List AParsedEvent)).map AStreamItem.events
        ++ AStreamItem.transportError "boom" :: [])
      = ao_run_stream 0 {} (([] : List (List AParsedEvent)).map AStreamItem.events) :=
  ⟨c9_transport_error_theorem.1 {} [] "boom" [],
   c9_transport_error_theorem.2.1 {} [[OLine.done]] "x",
   c9_transport_error_theorem.2.2 0 {} [] "boom" []⟩

/-- C3 counterexample: (a) on a stream carrying a text delta, then a
reasoning delta while the text block is open, the translator emits the
thinking delta at the open text block's index and never opens a thinking
block — it does not close the text block and open a thinking block as the
claim states; (b) a mid-stream finish reason followed by more content
yields two `content_block_stop` events for one `content_block_start`, so
the emitted stream is not block-lifecycle well-formed; (c) a tool-call
delta carrying a name but no id opens a second block at the same index
without stopping the first, again breaking well-formedness. -/
theorem c3_block_lifecycle_counterexample :
    oa_translate ls_reasoning_after_text
      = [AOut.messageStart "c1" "m",
         AOut.blockStart 0 ABlockKind.text,
         AOut.blockDelta 0 (AOutDelta.textDelta "a"),
         AOut.blockDelta 0 (AOutDelta.thinkingDelta "r"),
         AOut.blockStop 0,
         AOut.messageDelta (some "end_turn") none,
         AOut.messageStop]
    ∧ (oa_translate ls_reasoning_after_text).all
        (fun e => match e with
          | AOut.blockStart _ ABlockKind.thinking => false
          | _ => true) = true
    ∧ wellFormedAStream (oa_translate ls_double_finish) = false
    ∧ wellFormedAStream (oa_translate ls_name_only_tool) = false := by
  refine ⟨by decide, by decide, by decide, by decide⟩

/-- C3 amended: for streams in which every chunk's delta carries no
tool calls and only the final chunk (before `[DONE]`) carries a finish
reason, the emitted A stream is block-lifecycle well-formed: each
`content_block_start` at index i is followed, before any later start, by
zero or more deltas at i and exactly one stop at i, `message_start`
precedes all block events, `message_stop` is the last event, and block
indices are strictly increasing.  However, when a delta carries a
reasoning field while a text block is open, the translator emits the
thinking delta at the open text block's index without closing the text
block or opening a thinking block (a thinking block is opened only when no
block is open). -/
theorem c3_block_lifecycle_theorem :
    (∀ (cs : List OStreamChunk) (f : OStreamChunk),
      (∀ c ∈ cs, simpleChunk c = true) → finishChunk f = true →
      wellFormedAStream
        (oa_translate (cs.map OLine.chunk ++ [OLine.chunk f, OLine.done])) = true)
    ∧ (∀ (st : OAState) (c : OStreamChunk) (ch : OStreamChoice) (r mid mdl : String),
      st.message_id = some mid → st.current_model = some mdl →
      st.has_sent_message_start = true → st.current_block_type = some "text" →
      c.choices.head? = some ch →
      ch.delta = { reasoning := some r, content := none, tool_calls := none } →
      ch.finish_reason = none →
      oa_process_chunk st c
        = (st, [AOut.blockDelta st.content_index (AOutDelta.thinkingDelta r)])) := by
  constructor
  · intro cs f hcs hf
    have htot : oa_translate (cs.map OLine.chunk ++ [OLine.chunk f, OLine.done])
        = (oa_process_lines {} (cs.map OLine.chunk)).2
          ++ ((oa_process_chunk (oa_process_lines {} (cs.map OLine.chunk)).1 f).2
            ++ [AOut.messageStop]) := by
      unfold oa_translate
      rw [oa_process_lines_append, oa_process_lines_cons, oa_process_lines_cons]
      simp only [oa_process_line, oa_process_lines_nil, List.append_nil]
    rw [htot]
    unfold wellFormedAStream
    rw [Bool.and_eq_true, Bool.and_eq_true]
    refine ⟨⟨?_, ?_⟩, ?_⟩
    · unfold wfBlocks
      rw [List.foldl_append, List.foldl_append]
      have h1 : List.foldl chkStep (some (0, none))
          (oa_process_lines {} (cs.map OLine.chunk)).2
          = some (chkTarget (oa_process_lines {} (cs.map OLine.chunk)).1) :=
        chk_simple_lines cs hcs {}
      rw [h1]
      obtain ⟨n, hn⟩ :=
        chk_finish_chunk (oa_process_lines {} (cs.map OLine.chunk)).1 f hf
      rw [hn, List.foldl_cons, List.foldl_nil, chkStep_pass (n, none) AOut.messageStop rfl]
    · rcases oa_lines_start_structure cs {} rfl with ⟨he, hs⟩ | ⟨i, mo, hhead⟩
      · rw [he]
        simp only [List.nil_append]
        have hh : ∃ ch, f.choices.head? = some ch := by
          cases hfh : f.choices.head? with
          | none =>
            exfalso
            unfold finishChunk at hf
            rw [hfh] at hf
            exact Bool.false_ne_true hf
          | some ch => exact ⟨ch, rfl⟩
        obtain ⟨ch, hch⟩ := hh
        obtain ⟨i, mo, hhead⟩ := oa_chunk_head _ f ch hch hs
        cases hout : (oa_process_chunk (oa_process_lines {} (cs.map OLine.chunk)).1 f).2 with
        | nil => rw [hout] at hhead; cases hhead
        | cons a t =>
          rw [hout] at hhead
          injection hhead with hhead
          subst hhead
          exact wfStartFirst_of_head _ i mo rfl
      · cases hout : (oa_process_lines {} (cs.map OLine.chunk)).2 with
        | nil => rw [hout] at hhead; cases hhead
        | cons a t =>
          rw [hout] at hhead
          injection hhead with hhead
          subst hhead
          exact wfStartFirst_of_head _ i mo rfl
    · unfold wfStopLast
      rw [← List.append_assoc, List.getLast?_concat]
      simp
  · intro st c ch r mid mdl hmid hmdl hsent hcbt hh hdelta hfr
    obtain ⟨smid, smdl, sidx, stci, stcn, stca, ssent, scbt⟩ := st
    dsimp only at hmid hmdl hsent hcbt
    subst hmid
    subst hmdl
    subst hsent
    subst hcbt
    simp [oa_process_chunk, oa_process_choice, oa_emit_message_start,
      oa_emit_reasoning, oa_emit_content, oa_emit_tool_calls, oa_emit_finish,
      hh, hdelta, hfr]

/-- Witness for C3 (amended): the concrete stream with the single text
chunk "Hi" and a stop finish is well-formed, and the reasoning-while-text
behaviour at a concrete state. -/
theorem c3_block_lifecycle_witness :
    wellFormedAStream (oa_translate
      [OLine.chunk (mk_chunk "c1" "m" none (some "Hi") none none none),
       OLine.chunk (mk_chunk "c1" "m" none none none (some "stop") none),
       OLine.done]) = true
    ∧ oa_process_chunk
        { message_id := some "c1", current_model := some "m", content_index := 0
          tool_call_id := none, tool_call_name := none, tool_call_args := ""
          has_sent_message_start := true, current_block_type := some "text" }
        (mk_chunk "c1" "m" (some "r") none none none none)
      = ({ message_id := some "c1", current_model := some "m", content_index := 0
           tool_call_id := none, tool_call_name := none, tool_call_args := ""
           has_sent_message_start := true, current_block_type := some "text" },
         [AOut.blockDelta 0 (AOutDelta.thinkingDelta "r")]) := by
  constructor
  · exact c3_block_lifecycle_theorem.1
      [mk_chunk "c1" "m" none (some "Hi") none none none]
      (mk_chunk "c1" "m" none none none (some "stop") none)
      (by decide) (by decide)
  · exact c3_block_lifecycle_theorem.2
      { message_id := some "c1", current_model := some "m", content_index := 0
        tool_call_id := none, tool_call_name := none, tool_call_args := ""
        has_sent_message_start := true, current_block_type := some "text" }
      (mk_chunk "c1" "m" (some "r") none none none none)
      { delta := { reasoning := some "r", content := none, tool_calls := none }
        finish_reason := none }
      "r" "c1" "m" rfl rfl rfl rfl rfl rfl rfl

end Proxy
